import Mathlib

/-!
Shallow embedding of the sync/repo-cache core of the Stars1233/clace server
(package server: repo cache GetSha/CheckoutRepo, sync orchestrator
runSyncJob/runSyncJobs/CreateSyncEntry/syncRunner).

Effectful Go code is embedded as explicit state passing plus an event trace:
every call into the git transport, the filesystem, or the metadata store is
recorded as an event, and the results of those external collaborators are
supplied by a deterministic environment record.  Machine integers (Go int,
time.Duration in nanoseconds) are modelled as unbounded Int, except for the
one place where int64 wraparound matters (time.Duration multiplication in
the scheduler gate), modelled with an explicit wrap at 2^64.
-/

namespace Clace

/-! ## Repository cache data model (struct Repo, CacheDir, RepoCache) -/

/-- Mirrors struct Repo: the cache key (url, branch, commit, auth). -/
structure Repo where
  url : String
  branch : String
  commit : String
  auth : String
deriving DecidableEq, Repr

/-- Mirrors struct CacheDir: local dir, commit message, commit hash. -/
structure CacheDir where
  dir : String
  commitMessage : String
  hash : String
deriving DecidableEq, Repr

/-- Mirrors the mutable part of struct RepoCache: the two cache maps (as
association lists), the private temp root, a counter generating fresh
MkdirTemp names, and the set of paths that exist on the filesystem
(for the dev-checkout name probing). -/
structure RepoCacheState where
  rootDir : String := "/tmp/openrun_git_0"
  cache : List (Repo × CacheDir) := []
  shaCache : List (Repo × String) := []
  tempCounter : Nat := 0
  fsPaths : List String := []
deriving DecidableEq, Repr

/-- Result of Server.loadGitKey for one auth profile (the key-store itself is
not part of the shown source; only the two fields the shown code reads are
modelled: whether the URL is rewritten for SSH, and whether an SSH key is
present, which selects the auth method in createAuthMethod). -/
structure GitAuthEntry where
  usingSSH : Bool := false
  keyNonEmpty : Bool := false
deriving DecidableEq, Repr

/-- Mirrors the fields of go-git CloneOptions set by CheckoutRepo. -/
structure CloneOpts where
  url : String
  referenceName : Option String := none
  singleBranch : Bool := false
  depth : Option Nat := none
  auth : Option String := none
deriving DecidableEq, Repr

/-- Mirrors the fields of go-git CheckoutOptions set by CheckoutRepo. -/
structure CheckoutOpts where
  hash : Option String := none
  branch : Option String := none
deriving DecidableEq, Repr

/-- Observable git-transport/worktree actions performed by the repo cache. -/
inductive GitEvent where
  | remoteList (repo branch : String)
  | clone (repo targetPath : String) (opts : CloneOpts)
  | checkout (targetPath : String) (opts : CheckoutOpts)
deriving DecidableEq, Repr

/-- Deterministic environment supplying the results of the external
collaborators used by the repo cache (key store, URL parsing, git transport,
filesystem).  Faithful call structure is kept in the functions below; the
environment only decides each call's outcome. -/
structure RepoEnv where
  defaultGitAuth : String := ""
  devRoot : String := "/home/openrun/app_src/"
  loadGitKey : String → Except String GitAuthEntry := fun _ => .ok {}
  parseGitUrl : String → Bool → Except String (String × String) :=
    fun u _ => .ok (u, "")
  sshAuth : String → Except String String := fun a => .ok ("ssh:" ++ a)
  listRefs : String → Option String → Except String (List (String × String)) :=
    fun _ _ => .ok []
  plainClone : String → CloneOpts → Except String Unit := fun _ _ => .ok ()
  worktree : String → Except String Unit := fun _ => .ok ()
  checkoutStep : String → CheckoutOpts → Except String Unit := fun _ _ => .ok ()
  headCommit : String → Except String (String × String) := fun _ => .ok ("", "")
  mkdirOk : String → Bool := fun _ => true
  mkdirTempOk : Bool := true

/-- Mirrors RepoCache.createAuthMethod: load the key entry; SSH public-key
auth when a key is present, else HTTP basic auth. -/
def createAuthMethod (env : RepoEnv) (gitAuth : String) : Except String String :=
  match env.loadGitKey gitAuth with
  | .error e => .error e
  | .ok a => if a.keyNonEmpty then env.sshAuth gitAuth else .ok ("basic:" ++ gitAuth)

/-- Mirrors plumbing.NewBranchReferenceName. -/
def branchRefName (branch : String) : String := "refs/heads/" ++ branch

/-- Mirrors latestCommitSHA: list remote refs (one transport call, recorded as
an event) and match the branch's canonical reference name exactly. -/
def latestCommitSHA (env : RepoEnv) (repoURL branch : String) (auth : Option String) :
    Except String String × List GitEvent :=
  (match env.listRefs repoURL auth with
   | .error e => .error ("could not list remote refs: " ++ e)
   | .ok refs =>
     match refs.find? (fun r => r.1 == branchRefName branch) with
     | some r => .ok r.2
     | none => .error ("branch \"" ++ branch ++ "\" not found"),
   [GitEvent.remoteList repoURL branch])

/-- Mirrors RepoCache.GetSha: default the auth profile (cmp.Or), load the git
key, parse the URL, then consult shaCache keyed with an empty commit field;
on a miss resolve the auth method, list remote refs, and populate shaCache. -/
def GetSha (env : RepoEnv) (st : RepoCacheState) (sourceUrl branch gitAuth : String) :
    Except String String × RepoCacheState × List GitEvent :=
  let gitAuth := if gitAuth = "" then env.defaultGitAuth else gitAuth
  match env.loadGitKey gitAuth with
  | .error e => (.error e, st, [])
  | .ok authEntry =>
    match env.parseGitUrl sourceUrl authEntry.usingSSH with
    | .error e => (.error e, st, [])
    | .ok (repo, _) =>
      match st.shaCache.lookup ⟨repo, branch, "", gitAuth⟩ with
      | some sha => (.ok sha, st, [])
      | none =>
        match (if gitAuth ≠ "" then (createAuthMethod env gitAuth).map some
               else .ok none) with
        | .error e => (.error e, st, [])
        | .ok auth =>
          let shaRes := latestCommitSHA env repo branch auth
          match shaRes.1 with
          | .error e => (.error e, st, shaRes.2)
          | .ok sha =>
            (.ok sha,
             { st with shaCache := (⟨repo, branch, "", gitAuth⟩, sha) :: st.shaCache },
             shaRes.2)

/-- Mirrors filepath.Base restricted to slash paths: last non-empty
component; "." for the empty path, "/" for all-slash paths. -/
def baseName (p : String) : String :=
  match ((p.splitOn "/").filter (fun s => s ≠ "")).getLast? with
  | some s => s
  | none => if p = "" then "." else "/"

/-- Mirrors the probe loop inside getUnusedRepoPath, counting suffixes up
from 2.  Recursion is on an explicit fuel; getUnusedRepoPath supplies fuel
larger than the number of existing paths, so the fallback is unreachable. -/
def getUnusedRepoPathAux (fs : List String) (targetDir repoName : String) :
    Nat → Nat → String
  | 0, count => targetDir ++ repoName ++ toString count
  | fuel + 1, count =>
    let name := targetDir ++ repoName ++ toString count
    if name ∈ fs then getUnusedRepoPathAux fs targetDir repoName fuel (count + 1)
    else name

/-- Mirrors getUnusedRepoPath: first-fit name probe (name, name2, name3, ...)
against the set of existing filesystem paths. -/
def getUnusedRepoPath (fs : List String) (targetDir repoName : String) : String :=
  if targetDir ++ repoName ∈ fs then
    getUnusedRepoPathAux fs targetDir repoName (fs.length + 1) 2
  else targetDir ++ repoName

/-- Mirrors RepoCache.CheckoutRepo: default the auth profile, load the key,
parse the URL, consult the checkout cache under the full (url, branch,
commit, auth) key and return the cached tuple on a hit; otherwise build the
clone options, resolve auth, pick a target directory (persistent probed name
in dev mode, fresh private temp dir otherwise), clone, checkout, read the
head commit, and populate the cache under the originally requested key. -/
def CheckoutRepo (env : RepoEnv) (st : RepoCacheState)
    (sourceUrl branch commit gitAuth : String) (isDev : Bool) :
    Except String (String × String × String × String) × RepoCacheState × List GitEvent :=
  let gitAuth := if gitAuth = "" then env.defaultGitAuth else gitAuth
  match env.loadGitKey gitAuth with
  | .error e => (.error e, st, [])
  | .ok authEntry =>
  match env.parseGitUrl sourceUrl authEntry.usingSSH with
  | .error e => (.error e, st, [])
  | .ok (repo, folder) =>
  match st.cache.lookup ⟨repo, branch, commit, gitAuth⟩ with
  | some dir => (.ok (dir.dir, folder, dir.commitMessage, dir.hash), st, [])
  | none =>
  let cloneOptions : CloneOpts :=
    if commit = "" then
      { url := repo, referenceName := some (branchRefName branch),
        singleBranch := true, depth := if isDev then none else some 1 }
    else { url := repo }
  match (if gitAuth ≠ "" then (createAuthMethod env gitAuth).map some
         else .ok none) with
  | .error e => (.error e, st, [])
  | .ok auth =>
  let cloneOptions := { cloneOptions with auth := auth }
  let devStep : Except String (String × RepoCacheState) :=
    if isDev then
      let repoName := baseName repo
      let tp := getUnusedRepoPath st.fsPaths env.devRoot repoName
      if env.mkdirOk tp then .ok (tp, { st with fsPaths := tp :: st.fsPaths })
      else .error "mkdir failed"
    else
      let tp := st.rootDir ++ "/repo_" ++ toString st.tempCounter
      if env.mkdirTempOk then
        .ok (tp, { st with tempCounter := st.tempCounter + 1,
                           fsPaths := tp :: st.fsPaths })
      else .error "mkdir temp failed"
  match devStep with
  | .error e => (.error e, st, [])
  | .ok (targetPath, st1) =>
  let evClone := GitEvent.clone repo targetPath cloneOptions
  match env.plainClone targetPath cloneOptions with
  | .error e =>
    (.error ("error checking out branch " ++ branch ++ ": " ++ e), st1, [evClone])
  | .ok _ =>
  match env.worktree targetPath with
  | .error e => (.error e, st1, [evClone])
  | .ok _ =>
  let options : CheckoutOpts :=
    if commit ≠ "" then { hash := some commit }
    else { branch := some (branchRefName branch) }
  let evCheckout := GitEvent.checkout targetPath options
  match env.checkoutStep targetPath options with
  | .error e =>
    (.error ("error checking out branch " ++ branch ++ " commit " ++ commit ++ ": " ++ e),
     st1, [evClone, evCheckout])
  | .ok _ =>
  match env.headCommit targetPath with
  | .error e => (.error e, st1, [evClone, evCheckout])
  | .ok (msg, hash) =>
    (.ok (targetPath, folder, msg, hash),
     { st1 with cache :=
         (⟨repo, branch, commit, gitAuth⟩, ⟨targetPath, msg, hash⟩) :: st1.cache },
     [evClone, evCheckout])

/-! ## Sync entry data model

The struct declarations for types.SyncEntry / SyncJobStatus / SyncMetadata /
AppApplyResponse etc. live in the types package; AppApplyResponse,
AppReloadResult and friends are in the shown source, the SyncEntry family is
reconstructed from its field accesses in the shown server code and spec's
data-model section. -/

/-- App identity; modelled as an opaque string key. -/
abbrev AppPathDomain := String

/-- Mirrors types.ApproveResult, reduced to an identity (its fields are
carried through the orchestrator unchanged). -/
structure ApproveResult where
  id : String := ""
deriving DecidableEq, Repr

/-- Mirrors the fields of types.AppApplyResponse read or written by the
shown orchestrator code. -/
structure AppApplyResponse where
  dryRun : Bool := false
  commitId : String := ""
  skippedApply : Bool := false
  reloadResults : List AppPathDomain := []
  approveResults : List ApproveResult := []
  promoteResults : List AppPathDomain := []
  filteredApps : List AppPathDomain := []
deriving DecidableEq, Repr

/-- Modelled from the spec: types.SyncJobStatus (the Status block of a sync
entry: last execution time, last commit id, consecutive failure count, last
error text, apply-result snapshot, advisory state).  The struct declaration
is not in the shown source; fields follow their uses in runSyncJob and the
spec's data model.  Go's zero time is modelled as none. -/
structure SyncJobStatus where
  lastExecutionTime : Option Int := none
  commitId : String := ""
  failureCount : Int := 0
  error : String := ""
  isApply : Bool := false
  state : String := ""
  applyResponse : AppApplyResponse := {}
deriving DecidableEq, Repr

/-- Modelled from the spec: types.SyncMetadata (operator-controlled options
of a sync entry).  The struct declaration is not in the shown source; fields
follow their uses in the shown server code. -/
structure SyncMetadata where
  approve : Bool := false
  promote : Bool := false
  reload : String := "none"
  gitBranch : String := ""
  gitAuth : String := ""
  clobber : Bool := false
  forceReload : Bool := false
  webhookSecret : String := ""
  webhookUrl : String := ""
  scheduleFrequency : Int := 0
deriving DecidableEq, Repr

/-- Modelled from the spec: types.SyncEntry (persisted record).  The struct
declaration is not in the shown source; fields follow their uses in the
shown server code. -/
structure SyncEntry where
  id : String := ""
  path : String := ""
  isScheduled : Bool := false
  userId : String := ""
  metadata : SyncMetadata := {}
  status : SyncJobStatus := {}
deriving DecidableEq, Repr

/-- The fields of a stored app record that runSyncJob passes to ReloadApp. -/
structure AppEntry where
  gitBranch : String := ""
  gitAuthName : String := ""
deriving DecidableEq, Repr

/-- Mirrors types.AppReloadResult, restricted to the fields the orchestrator
accumulates. -/
structure AppReloadResult where
  reloadResults : List AppPathDomain := []
  approveResult : Option ApproveResult := none
  promoteResults : List AppPathDomain := []
deriving DecidableEq, Repr

/-- Mirrors types.SyncCreateResponse. -/
structure SyncCreateResponse where
  dryRun : Bool := false
  id : String := ""
  webhookUrl : String := ""
  webhookSecret : String := ""
  scheduleFrequency : Int := 0
  syncJobStatus : SyncJobStatus := {}
deriving DecidableEq, Repr

/-- Observable metadata-store / collaborator calls made by the orchestrator.
Transactions are identified by the Nat counter that allocated them. -/
inductive DbEvent where
  | beginTx (id : Nat)
  | rollback (id : Nat)
  | createSync (tx : Nat) (entryId : String)
  | logRunning (entryId : String)
  | applyCall (tx : Nat) (path : String) (lastRunCommitId : String)
  | getAppCall (tx : Nat) (app : AppPathDomain)
  | reloadCall (tx : Nat) (app : AppPathDomain)
  | recurse
  | updateSyncStatus (tx : Nat) (entryId : String) (st : SyncJobStatus)
  | completeTx (tx : Nat)
deriving DecidableEq, Repr

/-- Deterministic environment supplying configuration and the results of the
external collaborators of the orchestrator (metadata store, Apply engine,
Reload engine, id/secret generation). -/
structure SyncEnv where
  maxFail : Int := 5
  defaultScheduleMins : Int := 15
  userId : String := ""
  beginOk : Nat → Bool := fun _ => true
  apply : String → String → Except String (AppApplyResponse × List AppPathDomain) :=
    fun _ _ => .ok ({}, [])
  getApp : AppPathDomain → Except String AppEntry := fun _ => .ok {}
  reload : AppPathDomain → AppEntry → Except String AppReloadResult :=
    fun _ _ => .ok {}
  createOk : Bool := true
  updateOk : Bool := true
  completeOk : Bool := true
  newCacheOk : Bool := true
  genId : Except String String := .ok "id"
  genPassword : Except String String := .ok "pw"
  base64 : String → String := fun s => s
  getEntries : Except String (List SyncEntry) := .ok []

/-- Result triple of one runSyncJob call: the Go (status, updatedApps, err)
return as an Except, the event trace, and the transaction counter after the
call. -/
abbrev RunResult :=
  Except String (SyncJobStatus × List AppPathDomain) × List DbEvent × Nat

/-- Deferred tx.Rollback calls executing LIFO at function exit. -/
def rollbackEvents (defers : List Nat) : List DbEvent := defers.map DbEvent.rollback

/-- Mirrors the GetAppTx lookup loop in runSyncJob: look each last-run app
up, breaking at the first missing app (the appMissing flag becomes the error
case).  Returns the apps actually looked up (in order) and the result. -/
def lookupApps (env : SyncEnv) :
    List AppPathDomain →
    List AppPathDomain × Except String (List (AppPathDomain × AppEntry))
  | [] => ([], .ok [])
  | a :: rest =>
    match env.getApp a with
    | .error e => ([a], .error e)
    | .ok app =>
      let r := lookupApps env rest
      (a :: r.1, r.2.map (fun m => (a, app) :: m))

/-- Mirrors the ReloadApp loop in runSyncJob: reload each app, accumulating
reload/approve/promote results, aborting at the first reload failure.
Returns (apps reloaded in order, reloadResults, approveResults,
promoteResults, reloadErr). -/
def reloadLoop (env : SyncEnv) (appMap : List (AppPathDomain × AppEntry)) :
    List AppPathDomain →
    List AppPathDomain × List AppPathDomain × List ApproveResult ×
      List AppPathDomain × Option String
  | [] => ([], [], [], [], none)
  | a :: rest =>
    let app := (appMap.lookup a).getD {}
    match env.reload a app with
    | .error e => ([a], [], [], [], some e)
    | .ok r =>
      let rest' := reloadLoop env appMap rest
      (a :: rest'.1,
       r.reloadResults ++ rest'.2.1,
       (match r.approveResult with
        | some x => x :: rest'.2.2.1
        | none => rest'.2.2.1),
       r.promoteResults ++ rest'.2.2.2.1,
       rest'.2.2.2.2)

/-- Mirrors the tail of runSyncJob from UpdateSyncStatus on: persist the
status through the current transaction, then complete the transaction iff
the run succeeded and this call owns its top-level transaction.  Returns the
events this stage emits (the caller prepends the earlier trace); the
deferred rollbacks fire at exit on every path. -/
def persistAndComplete (env : SyncEnv) (inputTx : Option Nat) (entry : SyncEntry)
    (tx : Nat) (defers : List Nat) (txc : Nat) (status : SyncJobStatus)
    (applyInfo : AppApplyResponse) (updatedApps : List AppPathDomain) : RunResult :=
  let status := { status with applyResponse := applyInfo }
  let evs := [DbEvent.updateSyncStatus tx entry.id status]
  if ¬ env.updateOk then
    (.error "update sync status failed", evs ++ rollbackEvents defers, txc)
  else if status.error = "" ∧ inputTx = none then
    let evs := evs ++ [DbEvent.completeTx tx]
    if env.completeOk then (.ok (status, updatedApps), evs ++ rollbackEvents defers, txc)
    else (.error "complete transaction failed", evs ++ rollbackEvents defers, txc)
  else (.ok (status, updatedApps), evs ++ rollbackEvents defers, txc)

/-- Mirrors the failure-rollback protocol of runSyncJob: when the computed
status carries an error, roll back the transaction that was in use, open a
fresh transaction used only for the status update, register its deferred
rollback, and clear the updated-apps set; then persist and (conditionally)
complete.  Returns the events this stage emits. -/
def finishJob (env : SyncEnv) (inputTx : Option Nat) (entry : SyncEntry)
    (tx : Nat) (defers : List Nat) (txc : Nat) (status : SyncJobStatus)
    (applyInfo : AppApplyResponse) (updatedApps : List AppPathDomain) : RunResult :=
  if status.error ≠ "" then
    let evs := [DbEvent.rollback tx]
    if env.beginOk txc then
      let (res, evs2, txc2) :=
        persistAndComplete env inputTx entry txc (txc :: defers) (txc + 1) status
          applyInfo []
      (res, evs ++ [DbEvent.beginTx txc] ++ evs2, txc2)
    else (.error "begin transaction failed", evs ++ rollbackEvents defers, txc)
  else
    persistAndComplete env inputTx entry tx defers txc status applyInfo updatedApps

/-- The transaction used by runSyncJob: the caller's, or the one it opens. -/
def ownTx (inputTx : Option Nat) (txc : Nat) : Nat :=
  match inputTx with
  | none => txc
  | some t => t

/-- The deferred rollbacks registered during transaction setup (only an
owned transaction gets one). -/
def ownDefers (inputTx : Option Nat) (txc : Nat) : List Nat :=
  match inputTx with
  | none => [txc]
  | some _ => []

/-- The BeginTransaction event of transaction setup (none for a caller
transaction). -/
def beginEvents (inputTx : Option Nat) (txc : Nat) : List DbEvent :=
  match inputTx with
  | none => [DbEvent.beginTx txc]
  | some _ => []

/-- The transaction counter after transaction setup. -/
def txcAfterBegin (inputTx : Option Nat) (txc : Nat) : Nat :=
  match inputTx with
  | none => txc + 1
  | some _ => txc

/-- The body of runSyncJob, parameterized by the recursive re-run (invoked
only from the missing-app branch, which the source guards with
checkCommitHash).  Stages: transaction setup with deferred rollback when no
caller transaction is supplied, the Apply call, the failure/success status
computation, the skip-optimization (app lookups, possible recursive re-run,
reload loop), and the finish stage. -/
def runSyncJobF (env : SyncEnv) (now : Int) (inputTx : Option Nat) (entry : SyncEntry)
    (dryRun : Bool) (checkCommitHash : Bool) (recurse : Nat → RunResult)
    (txc : Nat) : RunResult :=
  if inputTx = none ∧ ¬ env.beginOk txc then (.error "begin transaction failed", [], txc)
  else
  let tx := ownTx inputTx txc
  let defers := ownDefers inputTx txc
  let txc1 := txcAfterBegin inputTx txc
  let lastRunApps := entry.status.applyResponse.filteredApps
  let lastRunCommitId := if checkCommitHash then entry.status.commitId else ""
  let evs0 := beginEvents inputTx txc ++
    [DbEvent.logRunning entry.id, DbEvent.applyCall tx entry.path lastRunCommitId]
  match env.apply entry.path lastRunCommitId with
  | .error applyErr =>
    let status : SyncJobStatus :=
      { lastExecutionTime := some now, isApply := true,
        error := applyErr,
        failureCount := entry.status.failureCount + 1,
        state := if entry.status.failureCount + 1 ≥ env.maxFail then "Disabled"
                 else "Failing" }
    let applyInfo : AppApplyResponse := { dryRun := dryRun, filteredApps := lastRunApps }
    let fin := finishJob env inputTx entry tx defers txc1 status applyInfo []
    (fin.1, evs0 ++ fin.2.1, fin.2.2)
  | .ok (ai, updatedApps) =>
    let status : SyncJobStatus :=
      { lastExecutionTime := some now, isApply := true, state := "Enabled",
        commitId := ai.commitId, failureCount := 0 }
    if ai.skippedApply ∧ entry.metadata.reload = "matched" then
      let ai := if ai.filteredApps = [] then { ai with filteredApps := lastRunApps }
                else ai
      let look := lookupApps env lastRunApps
      let lookEvs := look.1.map (DbEvent.getAppCall tx)
      match look.2 with
      | .error _ =>
        if ¬ checkCommitHash then
          (.error "Unexpected error, sync rerun with no commit hash",
           evs0 ++ lookEvs ++ rollbackEvents defers, txc1)
        else
          let inner := recurse txc1
          (inner.1, evs0 ++ lookEvs ++ [DbEvent.recurse] ++ inner.2.1 ++
                rollbackEvents defers, inner.2.2)
      | .ok appMap =>
        let rel := reloadLoop env appMap lastRunApps
        let rEvs := rel.1.map (DbEvent.reloadCall tx)
        match rel.2.2.2.2 with
        | some e =>
          let status :=
            { status with
              error := e
              failureCount := entry.status.failureCount + 1
              state := if entry.status.failureCount + 1 ≥ env.maxFail then "Disabled"
                       else "Failing" }
          let ai := { ai with reloadResults := rel.2.1, approveResults := rel.2.2.1,
                              promoteResults := rel.2.2.2.1 }
          let fin := finishJob env inputTx entry tx defers txc1 status ai updatedApps
          (fin.1, evs0 ++ lookEvs ++ rEvs ++ fin.2.1, fin.2.2)
        | none =>
          let fin := finishJob env inputTx entry tx defers txc1 status ai updatedApps
          (fin.1, evs0 ++ lookEvs ++ rEvs ++ fin.2.1, fin.2.2)
    else
      let fin := finishJob env inputTx entry tx defers txc1 status ai updatedApps
      (fin.1, evs0 ++ fin.2.1, fin.2.2)

/-- Mirrors Server.runSyncJob.  The recursive re-run always passes
checkCommitHash = false, so the recursion unfolds to at most two body
instances; the continuation handed to the inner body is unreachable (the
inner body's missing-app branch returns the rerun error instead). -/
def runSyncJob (env : SyncEnv) (now : Int) (inputTx : Option Nat) (entry : SyncEntry)
    (dryRun checkCommitHash : Bool) (txc : Nat) : RunResult :=
  match checkCommitHash with
  | true =>
    runSyncJobF env now inputTx entry dryRun true
      (fun txc2 =>
        runSyncJobF env now inputTx entry dryRun false
          (fun t => (.error "", [], t)) txc2) txc
  | false =>
    runSyncJobF env now inputTx entry dryRun false (fun t => (.error "", [], t)) txc

/-! ## CreateSyncEntry -/

/-- Mirrors Server.CreateSyncEntry: open a transaction (rolled back by a
deferred call on every exit path), generate the entry id, generate a webhook
secret for non-scheduled entries or default the schedule frequency, persist
the entry through CreateSync, run one synchronous job with
checkCommitHash = true through the same transaction, abort on a job error or
a failed status, and otherwise complete the transaction. -/
def CreateSyncEntry (env : SyncEnv) (now : Int) (path : String)
    (scheduled dryRun : Bool) (sync : SyncMetadata) (txc : Nat) :
    Except String SyncCreateResponse × List DbEvent × Nat :=
  if ¬ env.beginOk txc then (.error "begin transaction failed", [], txc)
  else
  let tx := txc
  let txc := txc + 1
  let evs := [DbEvent.beginTx tx]
  match env.genId with
  | .error e => (.error e, evs ++ [DbEvent.rollback tx], txc)
  | .ok gen =>
  let id := "cl_syn_" ++ gen.toLower
  let syncRes : Except String SyncMetadata :=
    if ¬ scheduled then
      match env.genPassword with
      | .error e => .error e
      | .ok secret => .ok { sync with webhookSecret := "cl_tkn_" ++ env.base64 secret }
    else if sync.scheduleFrequency ≤ 0 then
      .ok { sync with scheduleFrequency := env.defaultScheduleMins }
    else .ok sync
  match syncRes with
  | .error e => (.error e, evs ++ [DbEvent.rollback tx], txc)
  | .ok sync =>
  let syncEntry : SyncEntry :=
    { id := id, path := path, isScheduled := scheduled, userId := env.userId,
      metadata := sync }
  let evs := evs ++ [DbEvent.createSync tx id]
  if ¬ env.createOk then (.error "create sync failed", evs ++ [DbEvent.rollback tx], txc)
  else
  match runSyncJob env now (some tx) syncEntry dryRun true txc with
  | (.error e, jEvs, txc2) => (.error e, evs ++ jEvs ++ [DbEvent.rollback tx], txc2)
  | (.ok (syncStatus, updatedApps), jEvs, txc2) =>
  let evs := evs ++ jEvs
  if syncStatus.error ≠ "" then
    (.error syncStatus.error, evs ++ [DbEvent.rollback tx], txc2)
  else
  let ret : SyncCreateResponse :=
    { id := id, dryRun := dryRun, webhookUrl := "",
      webhookSecret := sync.webhookSecret,
      scheduleFrequency := sync.scheduleFrequency, syncJobStatus := syncStatus }
  let evs := evs ++ [DbEvent.completeTx tx]
  let _ := updatedApps
  if env.completeOk then (.ok ret, evs ++ [DbEvent.rollback tx], txc2)
  else (.error "complete transaction failed", evs ++ [DbEvent.rollback tx], txc2)

/-! ## Scheduler loop -/

/-- Signed 64-bit wraparound, as in Go's int64 arithmetic. -/
def int64Wrap (x : Int) : Int := (x + 2 ^ 63) % 2 ^ 64 - 2 ^ 63

/-- Nanoseconds in time.Minute. -/
def nanosPerMinute : Int := 60000000000

/-- time.Duration(freq) * time.Minute: int64 multiplication of a frequency
in minutes into nanoseconds. -/
def scheduleDuration (freqMins : Int) : Int := int64Wrap (freqMins * nanosPerMinute)

/-- The per-entry skip test of Server.runSyncJobs (the three continue
branches): not scheduled or non-positive frequency; a non-zero last
execution time closer to now than the frequency; or a failure count at the
configured maximum.  Time stamps are Int nanoseconds; Go's zero time is
none. -/
def syncSkip (maxFail : Int) (now : Int) (e : SyncEntry) : Bool :=
  (!e.isScheduled || e.metadata.scheduleFrequency ≤ 0)
  || (match e.status.lastExecutionTime with
      | none => false
      | some last => last + scheduleDuration e.metadata.scheduleFrequency > now)
  || e.status.failureCount ≥ maxFail

/-- The entry loop of Server.runSyncJobs: process entries in order, skipping
ineligible ones, running each eligible one in its own transaction with
checkCommitHash = true, ignoring per-entry errors. -/
def runSyncJobsLoop (env : SyncEnv) (now : Int) :
    List SyncEntry → Nat → List DbEvent × Nat
  | [], txc => ([], txc)
  | e :: rest, txc =>
    if syncSkip env.maxFail now e then runSyncJobsLoop env now rest txc
    else
      let (_, evs, txc1) := runSyncJob env now none e false true txc
      let (evs2, txc2) := runSyncJobsLoop env now rest txc1
      (evs ++ evs2, txc2)

/-- Mirrors Server.runSyncJobs: one tick of the scheduler.  Opens the tick
transaction and the shared repo cache, loads all entries (a load failure
aborts the whole tick), then runs the entry loop; per-entry errors never
make the tick fail. -/
def runSyncJobs (env : SyncEnv) (now : Int) (txc : Nat) :
    Except String Unit × List DbEvent × Nat :=
  if ¬ env.beginOk txc then (.error "begin transaction failed", [], txc)
  else
  let tx := txc
  if ¬ env.newCacheOk then
    (.error "repo cache create failed", [DbEvent.beginTx tx, DbEvent.rollback tx], txc + 1)
  else
  match env.getEntries with
  | .error e => (.error e, [DbEvent.beginTx tx, DbEvent.rollback tx], txc + 1)
  | .ok entries =>
    let (evs, txc2) := runSyncJobsLoop env now entries (txc + 1)
    (.ok (), [DbEvent.beginTx tx] ++ evs ++ [DbEvent.rollback tx], txc2)

/-- Mirrors Server.syncRunner: consume timer ticks, running one runSyncJobs
tick per firing, and break out of the loop permanently at the first tick
that returns an error.  The argument is the sequence of tick outcomes the
timer would deliver; the result is how many ticks actually execute. -/
def syncRunner : List (Except String Unit) → Nat
  | [] => 0
  | .ok _ :: rest => 1 + syncRunner rest
  | .error _ :: _ => 1

/-! ## Iterated scheduler-driven runs of one entry (for the failure-count
monotonicity analysis): at each tick the scheduler either skips the entry or
runs it, and a completed run's returned status is the entry's status at the
next tick (the status write-back through UpdateSyncStatus). -/

/-- One scheduler tick applied to a single entry. -/
def schedTick (env : SyncEnv) (now : Int) (e : SyncEntry) : SyncEntry :=
  if syncSkip env.maxFail now e then e
  else
    match (runSyncJob env now none e false true 0).1 with
    | .ok (st, _) => { e with status := st }
    | .error _ => e

/-- N scheduler ticks applied to a single entry, tick k firing at time
nowOf k. -/
def schedTicks (env : SyncEnv) (nowOf : Nat → Int) (e : SyncEntry) : Nat → SyncEntry
  | 0 => e
  | n + 1 => schedTick env (nowOf n) (schedTicks env nowOf e n)

/-! ## Repository cache properties -/

/-- Recognizes clone events. -/
def isCloneEvent : GitEvent → Bool
  | .clone _ _ _ => true
  | _ => false

/-- Recognizes checkout events. -/
def isCheckoutEvent : GitEvent → Bool
  | .checkout _ _ => true
  | _ => false

/-- Every event GetSha emits is a remote ref listing: it never clones or
checks out. -/
theorem GetSha_events_remoteList (env : RepoEnv) (st : RepoCacheState)
    (u b a : String) :
    ∀ ev ∈ (GetSha env st u b a).2.2, ∃ r, ev = GitEvent.remoteList r b := by
  simp only [GetSha, latestCommitSHA]
  repeat' split
  all_goals simp_all

/-- After a successful GetSha, a second call with the same arguments answers
from shaCache: same hash, unchanged state, and no transport events. -/
theorem GetSha_cached_repeat (env : RepoEnv) (st st1 : RepoCacheState)
    (u b a sha : String) (evs : List GitEvent)
    (h : GetSha env st u b a = (.ok sha, st1, evs)) :
    GetSha env st1 u b a = (.ok sha, st1, []) := by
  simp only [GetSha] at h ⊢
  set ga := if a = "" then env.defaultGitAuth else a with hga
  split at h
  · exact absurd h (by simp)
  · split at h
    · exact absurd h (by simp)
    · split at h
      · rename_i s heq3
        simp only [Prod.mk.injEq, Except.ok.injEq] at h
        obtain ⟨hs, hst, hevs⟩ := h
        subst hs
        rw [← hst]
        simp only [heq3]
      · rename_i heq3
        split at h
        · exact absurd h (by simp)
        · split at h
          · exact absurd h (by simp)
          · rename_i s heq5
            simp only [Prod.mk.injEq, Except.ok.injEq] at h
            obtain ⟨hs, hst, hevs⟩ := h
            subst hs
            rw [← hst]
            simp [List.lookup]

/-- Any single CheckoutRepo call emits at most one clone event. -/
theorem CheckoutRepo_clone_count (env : RepoEnv) (st : RepoCacheState)
    (u b c a : String) (isDev : Bool) :
    ((CheckoutRepo env st u b c a isDev).2.2.countP isCloneEvent) ≤ 1 := by
  simp only [CheckoutRepo]
  repeat' split
  all_goals simp [isCloneEvent, List.countP_cons]

/-- After a successful CheckoutRepo, a second call with the same arguments
answers from the checkout cache: the identical result tuple, unchanged
state, and no clone or checkout events. -/
theorem CheckoutRepo_cached_repeat (env : RepoEnv) (st st1 : RepoCacheState)
    (u b c a : String) (isDev : Bool) (t : String × String × String × String)
    (evs : List GitEvent)
    (h : CheckoutRepo env st u b c a isDev = (.ok t, st1, evs)) :
    CheckoutRepo env st1 u b c a isDev = (.ok t, st1, []) := by
  simp only [CheckoutRepo] at h ⊢
  set ga := if a = "" then env.defaultGitAuth else a with hga
  split at h
  · exact absurd h (by simp)
  · split at h
    · exact absurd h (by simp)
    · split at h
      · rename_i dir heq3
        simp only [Prod.mk.injEq, Except.ok.injEq] at h
        obtain ⟨ht, hst, hevs⟩ := h
        subst ht
        rw [← hst]
        simp only [heq3]
      · rename_i heq3
        split at h
        · exact absurd h (by simp)
        · split at h
          · exact absurd h (by simp)
          · rename_i tp st2 heq5
            split at h
            · exact absurd h (by simp)
            · split at h
              · exact absurd h (by simp)
              · split at h
                · exact absurd h (by simp)
                · split at h
                  · exact absurd h (by simp)
                  · rename_i msg hash heq9
                    simp only [Prod.mk.injEq, Except.ok.injEq] at h
                    obtain ⟨ht, hst, hevs⟩ := h
                    subst ht
                    rw [← hst]
                    simp [List.lookup]

/-! ## Claim theorems for the repository cache -/

/-- C5: two CheckoutRepo calls with identical arguments within one cache
instance's lifetime trigger at most one clone: given a successful first
call, the second call hits the checkout cache, returns the identical
(localDir, subPath, commitMessage, commitHash) tuple with unchanged state
and performs no clone and no checkout (its event list is empty), while the
first call had cloned at most once. -/
theorem claim_C5 (env : RepoEnv) (st st1 : RepoCacheState) (u b c a : String)
    (isDev : Bool) (t : String × String × String × String) (evs : List GitEvent)
    (h : CheckoutRepo env st u b c a isDev = (.ok t, st1, evs)) :
    CheckoutRepo env st1 u b c a isDev = (.ok t, st1, []) ∧
    evs.countP isCloneEvent ≤ 1 ∧
    (evs ++ (CheckoutRepo env st1 u b c a isDev).2.2).countP isCloneEvent ≤ 1 := by
  have h2 := CheckoutRepo_cached_repeat env st st1 u b c a isDev t evs h
  have hc := CheckoutRepo_clone_count env st u b c a isDev
  rw [h] at hc
  refine ⟨h2, hc, ?_⟩
  rw [h2]
  simpa using hc

/-- Witness for C5 at a concrete environment: the state after one
successful non-dev checkout of ("url", branch "main"). -/
def coutTP : String := "/tmp/openrun_git_0/repo_0"

/-- Clone options of that first checkout (no commit requested: single
branch, shallow). -/
def coutOpts : CloneOpts :=
  { url := "url", referenceName := some "refs/heads/main", singleBranch := true,
    depth := some 1, auth := none }

/-- Cache state after the first checkout. -/
def coutSt1 : RepoCacheState :=
  { tempCounter := 1, fsPaths := [coutTP],
    cache := [(⟨"url", "main", "", ""⟩, ⟨coutTP, "", ""⟩)] }

/-- C5 witness: the second identical CheckoutRepo call returns the cached
tuple with no events. -/
theorem claim_C5_witness :
    CheckoutRepo {} coutSt1 "url" "main" "" "" false =
      (.ok (coutTP, "", "", ""), coutSt1, []) :=
  (claim_C5 {} {} coutSt1 "url" "main" "" "" false (coutTP, "", "", "")
    [.clone "url" coutTP coutOpts,
     .checkout coutTP { branch := some "refs/heads/main" }] (by rfl)).1

/-- C6: GetSha never clones or checks out (every event it can emit is a
remote ref listing), and after a successful call a second call with the same
arguments returns the cached hash with no further events (in particular no
second remote listing). -/
theorem claim_C6 (env : RepoEnv) (st : RepoCacheState) (u b a : String) :
    (∀ r tp o br, GitEvent.clone r tp o ∉ (GetSha env st u b a).2.2 ∧
       GitEvent.checkout tp br ∉ (GetSha env st u b a).2.2) ∧
    (∀ sha st1 evs, GetSha env st u b a = (.ok sha, st1, evs) →
       GetSha env st1 u b a = (.ok sha, st1, [])) := by
  constructor
  · intro r tp o br
    constructor <;> intro hmem <;>
      obtain ⟨rr, hr⟩ := GetSha_events_remoteList env st u b a _ hmem <;> simp at hr
  · intro sha st1 evs h
    exact GetSha_cached_repeat env st st1 u b a sha evs h

/-- Environment for the C6 witness: one remote branch main at hash abc. -/
def shaEnvW : RepoEnv :=
  { listRefs := fun _ _ => .ok [("refs/heads/main", "abc")] }

/-- Cache state after the first GetSha call of the C6 witness. -/
def shaStW1 : RepoCacheState :=
  { shaCache := [(⟨"url", "main", "", ""⟩, "abc")] }

/-- C6 witness: the second identical GetSha call answers from the cache with
no events. -/
theorem claim_C6_witness :
    GetSha shaEnvW shaStW1 "url" "main" "" = (.ok "abc", shaStW1, []) :=
  (claim_C6 shaEnvW {} "url" "main" "").2 "abc" shaStW1
    [GitEvent.remoteList "url" "main"] (by rfl)

/-- C10: in GetSha, auth-profile resolution (with the default-profile
fallback) and URL parsing precede the shaCache lookup: when loading the
resolved profile fails, or when URL parsing fails, GetSha returns that error
for every cache state — including states whose shaCache already holds the
requested key — without any transport event. -/
theorem claim_C10 (env : RepoEnv) (st : RepoCacheState) (u b a msg : String) :
    (env.loadGitKey (if a = "" then env.defaultGitAuth else a) = .error msg →
      GetSha env st u b a = (.error msg, st, [])) ∧
    (∀ ae, env.loadGitKey (if a = "" then env.defaultGitAuth else a) = .ok ae →
      env.parseGitUrl u ae.usingSSH = .error msg →
      GetSha env st u b a = (.error msg, st, [])) := by
  constructor
  · intro h
    simp only [GetSha, h]
  · intro ae h hp
    simp only [GetSha, h, hp]

/-- Environment for the C10 witness: the key store fails, yet the cache
already holds the requested key. -/
def authFailEnvW : RepoEnv := { loadGitKey := fun _ => .error "unknown auth" }

/-- C10 witness: with the key cached but the auth profile unloadable, GetSha
still fails with the auth error. -/
theorem claim_C10_witness :
    GetSha authFailEnvW shaStW1 "url" "main" "" = (.error "unknown auth", shaStW1, []) :=
  (claim_C10 authFailEnvW shaStW1 "url" "main" "" "unknown auth").1 (by rfl)

/-! ## Scheduler skip rule (C3) -/

/-- int64 wraparound is the identity on the int64 range. -/
theorem int64Wrap_eq (x : Int) (h1 : -(2 ^ 63) ≤ x) (h2 : x < 2 ^ 63) :
    int64Wrap x = x := by
  unfold int64Wrap
  omega

/-- The skip condition as the specification words it: not scheduled, or
non-positive frequency, or elapsed time since the last execution below the
frequency, or failure count at the configured maximum. -/
def claimSkip (maxFail now : Int) (e : SyncEntry) : Prop :=
  ¬ e.isScheduled ∨ e.metadata.scheduleFrequency ≤ 0
  ∨ (∃ last, e.status.lastExecutionTime = some last ∧
       now - last < e.metadata.scheduleFrequency * nanosPerMinute)
  ∨ e.status.failureCount ≥ maxFail

/-- The code's skip test agrees with the specification's reading whenever
the frequency-to-duration conversion does not overflow int64. -/
theorem syncSkip_iff_claimSkip (maxFail now : Int) (e : SyncEntry)
    (h1 : -(2 ^ 63) ≤ e.metadata.scheduleFrequency * nanosPerMinute)
    (h2 : e.metadata.scheduleFrequency * nanosPerMinute < 2 ^ 63) :
    syncSkip maxFail now e = true ↔ claimSkip maxFail now e := by
  unfold syncSkip claimSkip scheduleDuration
  rw [int64Wrap_eq _ h1 h2]
  cases hle : e.status.lastExecutionTime with
  | none =>
    simp [hle]
    tauto
  | some last =>
    have ht : (last + e.metadata.scheduleFrequency * nanosPerMinute > now) ↔
        (now - last < e.metadata.scheduleFrequency * nanosPerMinute) := by omega
    simp [hle, ht]
    tauto

/-- The advisory state field plays no role in the skip decision. -/
theorem syncSkip_state_irrelevant (maxFail now : Int) (e : SyncEntry) (s : String) :
    syncSkip maxFail now
      { e with status := { e.status with state := s } } = syncSkip maxFail now e := by
  simp [syncSkip]

/-! ## Event-shape lemmas for the orchestrator -/

/-- Events emitted by the persist/complete stage: a status update on the
current transaction, possibly its completion, and the deferred rollbacks. -/
theorem persistAndComplete_events (env : SyncEnv) (inputTx : Option Nat)
    (entry : SyncEntry) (tx : Nat) (defers : List Nat) (txc : Nat)
    (status : SyncJobStatus) (ai : AppApplyResponse) (ua : List AppPathDomain) :
    ∀ ev ∈ (persistAndComplete env inputTx entry tx defers txc status ai ua).2.1,
      (∃ s, ev = DbEvent.updateSyncStatus tx entry.id s) ∨ ev = DbEvent.completeTx tx ∨
      (∃ n, n ∈ defers ∧ ev = DbEvent.rollback n) := by
  simp only [persistAndComplete, rollbackEvents]
  repeat' split
  all_goals simp_all

/-- Events emitted by the finish stage: rollbacks, transaction begins, a
status update carrying this entry's id, or a completion. -/
theorem finishJob_events (env : SyncEnv) (inputTx : Option Nat)
    (entry : SyncEntry) (tx : Nat) (defers : List Nat) (txc : Nat)
    (status : SyncJobStatus) (ai : AppApplyResponse) (ua : List AppPathDomain) :
    ∀ ev ∈ (finishJob env inputTx entry tx defers txc status ai ua).2.1,
      (∃ n, ev = DbEvent.rollback n) ∨ (∃ n, ev = DbEvent.beginTx n) ∨
      (∃ n s, ev = DbEvent.updateSyncStatus n entry.id s) ∨
      (∃ n, ev = DbEvent.completeTx n) := by
  simp only [finishJob]
  split
  · split
    · intro ev hev
      simp only [List.mem_append, List.mem_singleton] at hev
      rcases hev with ((h | h) | h)
      · exact Or.inl ⟨tx, h⟩
      · exact Or.inr (Or.inl ⟨txc, h⟩)
      · rcases persistAndComplete_events env inputTx entry txc (txc :: defers)
          (txc + 1) status ai [] ev h with (⟨s, hs⟩ | hs | ⟨n, _, hs⟩)
        · exact Or.inr (Or.inr (Or.inl ⟨txc, s, hs⟩))
        · exact Or.inr (Or.inr (Or.inr ⟨txc, hs⟩))
        · exact Or.inl ⟨n, hs⟩
    · intro ev hev
      simp only [rollbackEvents, List.mem_append, List.mem_map,
        List.mem_singleton] at hev
      rcases hev with (h | ⟨n, _, hn⟩)
      · exact Or.inl ⟨tx, h⟩
      · exact Or.inl ⟨n, hn.symm⟩
  · intro ev hev
    rcases persistAndComplete_events env inputTx entry tx defers txc status ai ua
      ev hev with (⟨s, hs⟩ | hs | ⟨n, _, hs⟩)
    · exact Or.inr (Or.inr (Or.inl ⟨tx, s, hs⟩))
    · exact Or.inr (Or.inr (Or.inr ⟨tx, hs⟩))
    · exact Or.inl ⟨n, hs⟩

/-- Store-plumbing events: those the finish stage can emit. -/
def plumbingEvent : DbEvent → Bool
  | .rollback _ => true
  | .beginTx _ => true
  | .updateSyncStatus _ _ _ => true
  | .completeTx _ => true
  | _ => false

/-- Every finish-stage event is store plumbing. -/
theorem finishJob_plumbing (env : SyncEnv) (inputTx : Option Nat)
    (entry : SyncEntry) (tx : Nat) (defers : List Nat) (txc : Nat)
    (status : SyncJobStatus) (ai : AppApplyResponse) (ua : List AppPathDomain) :
    ∀ ev ∈ (finishJob env inputTx entry tx defers txc status ai ua).2.1,
      plumbingEvent ev = true := by
  intro ev hev
  rcases finishJob_events env inputTx entry tx defers txc status ai ua ev hev with
    ⟨n, rfl⟩ | ⟨n, rfl⟩ | ⟨n, s, rfl⟩ | ⟨n, rfl⟩ <;> rfl

/-- logRunning events never come from transaction setup. -/
theorem logRunning_not_mem_beginEvents (inputTx : Option Nat) (txc : Nat) (i : String) :
    DbEvent.logRunning i ∉ beginEvents inputTx txc := by
  cases inputTx <;> simp [beginEvents]

/-- logRunning events carry this job's entry id: body version, assuming the
same of the recursive continuation. -/
theorem runSyncJobF_logRunning (env : SyncEnv) (now : Int) (inputTx : Option Nat)
    (entry : SyncEntry) (dryRun cch : Bool) (recurse : Nat → RunResult) (txc : Nat)
    (hrec : ∀ t i, DbEvent.logRunning i ∈ (recurse t).2.1 → i = entry.id) :
    ∀ i, DbEvent.logRunning i ∈
      (runSyncJobF env now inputTx entry dryRun cch recurse txc).2.1 → i = entry.id := by
  intro i hmem
  simp only [runSyncJobF] at hmem
  repeat' split at hmem
  all_goals try simp only [rollbackEvents, List.mem_append, List.mem_cons,
    List.not_mem_nil, or_false] at hmem
  all_goals repeat' (rcases hmem with hmem | hmem)
  all_goals first
    | exact absurd hmem (logRunning_not_mem_beginEvents _ _ _)
    | (simpa using hmem)
    | (simp at hmem)
    | exact hrec _ i hmem
    | (have h2 := finishJob_plumbing env inputTx entry _ _ _ _ _ _ _ hmem
       simp [plumbingEvent] at h2)

/-- logRunning events carry this job's entry id (full runSyncJob). -/
theorem runSyncJob_logRunning (env : SyncEnv) (now : Int) (inputTx : Option Nat)
    (entry : SyncEntry) (dryRun cch : Bool) (txc : Nat) :
    ∀ i, DbEvent.logRunning i ∈
      (runSyncJob env now inputTx entry dryRun cch txc).2.1 → i = entry.id := by
  have hinner : ∀ t i, DbEvent.logRunning i ∈
      (runSyncJobF env now inputTx entry dryRun false
        (fun t' => (.error "", [], t')) t).2.1 → i = entry.id := by
    intro t
    exact runSyncJobF_logRunning env now inputTx entry dryRun false _ t
      (by intro t' i h; simp at h)
  cases cch with
  | true =>
    intro i h
    exact runSyncJobF_logRunning env now inputTx entry dryRun true _ txc
      (fun t j hj => hinner t j hj) i h
  | false =>
    intro i h
    exact hinner txc i h

/-- A job invoked by the scheduler (own transaction, begin succeeding)
always logs that it is running. -/
theorem runSyncJobF_logRunning_present (env : SyncEnv) (now : Int)
    (entry : SyncEntry) (dryRun cch : Bool) (recurse : Nat → RunResult) (txc : Nat)
    (hb : env.beginOk txc = true) :
    DbEvent.logRunning entry.id ∈
      (runSyncJobF env now none entry dryRun cch recurse txc).2.1 := by
  simp only [runSyncJobF, hb]
  repeat' split
  all_goals simp_all [beginEvents]

/-- Presence, full runSyncJob version. -/
theorem runSyncJob_logRunning_present (env : SyncEnv) (now : Int)
    (entry : SyncEntry) (dryRun cch : Bool) (txc : Nat)
    (hb : env.beginOk txc = true) :
    DbEvent.logRunning entry.id ∈
      (runSyncJob env now none entry dryRun cch txc).2.1 := by
  cases cch with
  | true =>
    simp only [runSyncJob]
    exact runSyncJobF_logRunning_present env now entry dryRun true _ txc hb
  | false =>
    simp only [runSyncJob]
    exact runSyncJobF_logRunning_present env now entry dryRun false _ txc hb

/-- In one scheduler tick's entry loop, an entry's logRunning event appears
iff some entry with that id is eligible (not skipped). -/
theorem runSyncJobsLoop_logRunning (env : SyncEnv) (now : Int)
    (hb : ∀ n, env.beginOk n = true) :
    ∀ (entries : List SyncEntry) (txc : Nat) (i : String),
      DbEvent.logRunning i ∈ (runSyncJobsLoop env now entries txc).1 ↔
        ∃ e ∈ entries, syncSkip env.maxFail now e = false ∧ i = e.id := by
  intro entries
  induction entries with
  | nil => intro txc i; simp [runSyncJobsLoop]
  | cons e rest ih =>
    intro txc i
    simp only [runSyncJobsLoop]
    split
    · rename_i hskip
      rw [ih txc i]
      constructor
      · rintro ⟨e', he', hs, hi⟩
        exact ⟨e', List.mem_cons_of_mem _ he', hs, hi⟩
      · rintro ⟨e', he', hs, hi⟩
        rcases List.mem_cons.mp he' with rfl | he'
        · rw [hskip] at hs
          cases hs
        · exact ⟨e', he', hs, hi⟩
    · rename_i hskip
      rw [Bool.not_eq_true] at hskip
      constructor
      · intro hmem
        rw [List.mem_append] at hmem
        rcases hmem with hmem | hmem
        · exact ⟨e, List.mem_cons_self e rest,
            hskip, runSyncJob_logRunning env now none e false true txc i hmem⟩
        · obtain ⟨e', he', hs, hi⟩ := (ih _ i).mp hmem
          exact ⟨e', List.mem_cons_of_mem _ he', hs, hi⟩
      · rintro ⟨e', he', hs, hi⟩
        rw [List.mem_append]
        rcases List.mem_cons.mp he' with rfl | he'
        · subst hi
          exact Or.inl (runSyncJob_logRunning_present env now e' false true txc (hb txc))
        · exact Or.inr ((ih _ i).mpr ⟨e', he', hs, hi⟩)

/-- C3: the scheduler's per-entry skip test holds iff the entry is not
scheduled, or its frequency is non-positive, or the elapsed time since its
last execution is below the frequency, or its failure count has reached the
configured maximum (given the minute-to-duration conversion does not
overflow int64); the advisory state field plays no role; and on a tick whose
entry list loads, an entry's job runs (its running log appears) iff the skip
test is false. -/
theorem claim_C3 (env : SyncEnv) (now : Int) (e : SyncEntry)
    (h1 : -(2 ^ 63) ≤ e.metadata.scheduleFrequency * nanosPerMinute)
    (h2 : e.metadata.scheduleFrequency * nanosPerMinute < 2 ^ 63) :
    (syncSkip env.maxFail now e = true ↔ claimSkip env.maxFail now e) ∧
    (∀ s, syncSkip env.maxFail now { e with status := { e.status with state := s } }
        = syncSkip env.maxFail now e) ∧
    (∀ entries txc, env.getEntries = .ok entries → (∀ n, env.beginOk n = true) →
      env.newCacheOk = true → (entries.map SyncEntry.id).Nodup → e ∈ entries →
      (DbEvent.logRunning e.id ∈ (runSyncJobs env now txc).2.1 ↔
        syncSkip env.maxFail now e = false)) := by
  refine ⟨syncSkip_iff_claimSkip env.maxFail now e h1 h2,
    fun s => syncSkip_state_irrelevant env.maxFail now e s, ?_⟩
  intro entries txc hget hb hcache hnodup hmem
  simp only [runSyncJobs, hb txc, hcache, hget, not_true, if_neg, Bool.not_true,
    Bool.false_eq_true, not_false_eq_true, if_true]
  constructor
  · intro hin
    simp only [List.mem_append, List.mem_cons, List.mem_singleton,
      List.not_mem_nil, or_false] at hin
    rcases hin with (hin | hin) | hin
    · cases hin
    · obtain ⟨e', he', hs, hi⟩ :=
        (runSyncJobsLoop_logRunning env now hb entries (txc + 1) e.id).mp hin
      have : e = e' :=
        List.inj_on_of_nodup_map hnodup hmem he' hi
      rw [this]
      exact hs
    · cases hin
  · intro hskip
    simp only [List.mem_append, List.mem_cons]
    refine Or.inl (Or.inr ?_)
    exact (runSyncJobsLoop_logRunning env now hb entries (txc + 1) e.id).mpr
      ⟨e, hmem, hskip, rfl⟩

/-- Entry for the C3 witness: scheduled, frequency one minute, never run. -/
def c3Entry : SyncEntry :=
  { id := "cl_syn_a", isScheduled := true, metadata := { scheduleFrequency := 1 } }

/-- Environment for the C3 witness: one entry in the store. -/
def c3Env : SyncEnv := { getEntries := .ok [c3Entry] }

/-- C3 witness: on a concrete tick the eligible entry's job runs iff its
skip test is false. -/
theorem claim_C3_witness :
    DbEvent.logRunning "cl_syn_a" ∈ (runSyncJobs c3Env 100 0).2.1 ↔
      syncSkip c3Env.maxFail 100 c3Entry = false :=
  (claim_C3 c3Env 100 c3Entry (by decide) (by decide)).2.2 [c3Entry] 0 rfl
    (fun _ => rfl) rfl (by decide) (by decide)

/-! ## Recursion bound (C7) -/

/-- Finish-stage events contain no recursion marker. -/
theorem finishJob_countP_recurse (env : SyncEnv) (inputTx : Option Nat)
    (entry : SyncEntry) (tx : Nat) (defers : List Nat) (txc : Nat)
    (status : SyncJobStatus) (ai : AppApplyResponse) (ua : List AppPathDomain) :
    (finishJob env inputTx entry tx defers txc status ai ua).2.1.countP
      (fun ev => ev == DbEvent.recurse) = 0 := by
  rw [List.countP_eq_zero]
  intro ev hev
  have h := finishJob_plumbing env inputTx entry tx defers txc status ai ua ev hev
  cases ev <;> simp_all [plumbingEvent]

/-- The checkCommitHash = false body of runSyncJob emits no recursion marker
and never invokes its recursion continuation (its only recursion site is
guarded by checkCommitHash). -/
theorem runSyncJobF_false_countP_recurse (env : SyncEnv) (now : Int)
    (inputTx : Option Nat) (entry : SyncEntry) (dryRun : Bool)
    (recurse : Nat → RunResult) (txc : Nat) :
    (runSyncJobF env now inputTx entry dryRun false recurse txc).2.1.countP
      (fun ev => ev == DbEvent.recurse) = 0 := by
  rw [List.countP_eq_zero]
  intro ev hev
  simp only [runSyncJobF] at hev
  repeat' split at hev
  all_goals try simp only [rollbackEvents, List.mem_append, List.mem_cons,
    List.not_mem_nil, or_false] at hev
  all_goals repeat' (rcases hev with hev | hev)
  all_goals first
    | (simp_all; done)
    | (have h2 := finishJob_plumbing _ _ _ _ _ _ _ _ _ _ hev
       cases ev <;> simp_all [plumbingEvent])
    | (obtain ⟨x, hx, rfl⟩ := List.mem_map.mp hev; simp)
    | (cases inputTx <;> (simp_all [beginEvents]; done))

/-- Setup events contain no recursion marker. -/
theorem beginEvents_countP_recurse (it : Option Nat) (n : Nat) :
    (beginEvents it n).countP (fun ev => ev == DbEvent.recurse) = 0 := by
  cases it <;> simp [beginEvents]

/-- Deferred rollbacks contain no recursion marker. -/
theorem rollbackEvents_countP_recurse (ds : List Nat) :
    (rollbackEvents ds).countP (fun ev => ev == DbEvent.recurse) = 0 := by
  rw [List.countP_eq_zero]
  intro a ha
  simp only [rollbackEvents] at ha
  obtain ⟨x, _, rfl⟩ := List.mem_map.mp ha
  simp

/-- Mapped per-app events contain no recursion marker. -/
theorem map_countP_recurse (f : AppPathDomain → DbEvent) (l : List AppPathDomain)
    (hf : ∀ a, ¬ (f a == DbEvent.recurse) = true) :
    (l.map f).countP (fun ev => ev == DbEvent.recurse) = 0 := by
  rw [List.countP_eq_zero]
  intro a ha
  obtain ⟨x, _, rfl⟩ := List.mem_map.mp ha
  exact hf x

/-- The checkCommitHash = true body marks at most one recursion, provided
the continuation's own trace carries none. -/
theorem runSyncJobF_true_countP_recurse (env : SyncEnv) (now : Int)
    (inputTx : Option Nat) (entry : SyncEntry) (dryRun : Bool)
    (recurse : Nat → RunResult) (txc : Nat)
    (hrec : ∀ t, (recurse t).2.1.countP (fun ev => ev == DbEvent.recurse) = 0) :
    (runSyncJobF env now inputTx entry dryRun true recurse txc).2.1.countP
      (fun ev => ev == DbEvent.recurse) ≤ 1 := by
  simp only [runSyncJobF]
  repeat' split
  all_goals simp only [List.countP_append, List.countP_cons, List.countP_nil,
    beginEvents_countP_recurse, rollbackEvents_countP_recurse,
    finishJob_countP_recurse, hrec]
  all_goals repeat' rw [map_countP_recurse _ _ (by intro a; simp)]
  all_goals simp

/-- Any runSyncJob call recurses at most once: the trace carries at most one
recursion marker. -/
theorem runSyncJob_recurse_once (env : SyncEnv) (now : Int) (inputTx : Option Nat)
    (entry : SyncEntry) (dryRun cch : Bool) (txc : Nat) :
    (runSyncJob env now inputTx entry dryRun cch txc).2.1.countP
      (fun ev => ev == DbEvent.recurse) ≤ 1 := by
  cases cch with
  | false =>
    simp only [runSyncJob]
    rw [runSyncJobF_false_countP_recurse]
    omega
  | true =>
    simp only [runSyncJob]
    exact runSyncJobF_true_countP_recurse env now inputTx entry dryRun _ txc
      (fun t => runSyncJobF_false_countP_recurse env now inputTx entry dryRun _ t)

/-- The app-lookup loop fails exactly when some app in the list is
missing. -/
theorem lookupApps_error_iff (env : SyncEnv) (l : List AppPathDomain) :
    (∃ msg, (lookupApps env l).2 = .error msg) ↔
      ∃ a ∈ l, ∃ msg, env.getApp a = .error msg := by
  induction l with
  | nil => simp [lookupApps]
  | cons a rest ih =>
    simp only [lookupApps]
    cases hg : env.getApp a with
    | error e => simp [hg]
    | ok app =>
      cases hres : (lookupApps env rest).2 with
      | error e2 =>
        simp only [hres, Except.map, List.mem_cons]
        constructor
        · intro _
          obtain ⟨a', ha', msg2, hmsg2⟩ := ih.mp ⟨e2, hres⟩
          exact ⟨a', Or.inr ha', msg2, hmsg2⟩
        · intro _
          exact ⟨e2, rfl⟩
      | ok m =>
        simp only [hres, Except.map, List.mem_cons]
        constructor
        · rintro ⟨msg, hmsg⟩
          cases hmsg
        · rintro ⟨a', ha', msg, hmsg⟩
          rcases ha' with rfl | ha'
          · rw [hg] at hmsg
            cases hmsg
          · obtain ⟨msg2, hmsg2⟩ := ih.mpr ⟨a', ha', msg, hmsg⟩
            rw [hres] at hmsg2
            cases hmsg2

/-- The inner re-run guard: a checkCommitHash = false run that reaches the
skip-optimization with a missing app returns the rerun error instead of
recursing. -/
theorem runSyncJob_rerun_guard (env : SyncEnv) (now : Int) (inputTx : Option Nat)
    (entry : SyncEntry) (dryRun : Bool) (txc : Nat)
    (hb : ¬ (inputTx = none ∧ ¬ env.beginOk txc = true))
    (ai : AppApplyResponse) (ua : List AppPathDomain)
    (happly : env.apply entry.path "" = .ok (ai, ua))
    (hskip : ai.skippedApply = true)
    (hmatched : entry.metadata.reload = "matched")
    (msg : String)
    (hmissing : (lookupApps env entry.status.applyResponse.filteredApps).2 =
      .error msg) :
    (runSyncJob env now inputTx entry dryRun false txc).1 =
      .error "Unexpected error, sync rerun with no commit hash" := by
  simp [runSyncJob, runSyncJobF, if_neg hb, happly, hskip, hmatched, hmissing]
  split
  · rename_i hcond
    exact absurd ⟨hcond.1, by simp [hcond.2]⟩ hb
  · rfl

/-- C7: runSyncJob's recursion depth is bounded by one per external call:
every trace carries at most one recursion marker; an inner
(checkCommitHash = false) run that finds a missing app errors with the rerun
message instead of recursing; and in the missing-app scenario the outer
(checkCommitHash = true) run recurses exactly once. -/
theorem claim_C7 (env : SyncEnv) (now : Int) (inputTx : Option Nat)
    (entry : SyncEntry) (dryRun : Bool) (txc : Nat) :
    (∀ cch, (runSyncJob env now inputTx entry dryRun cch txc).2.1.countP
        (fun ev => ev == DbEvent.recurse) ≤ 1) ∧
    (∀ (ai : AppApplyResponse) (ua : List AppPathDomain),
      ¬ (inputTx = none ∧ ¬ env.beginOk txc = true) →
      env.apply entry.path "" = .ok (ai, ua) → ai.skippedApply = true →
      entry.metadata.reload = "matched" →
      (∃ a ∈ entry.status.applyResponse.filteredApps, ∃ m, env.getApp a = .error m) →
      (runSyncJob env now inputTx entry dryRun false txc).1 =
        .error "Unexpected error, sync rerun with no commit hash") ∧
    (∀ (ai : AppApplyResponse) (ua : List AppPathDomain),
      (∀ n, env.beginOk n = true) →
      (∀ c, env.apply entry.path c = .ok (ai, ua)) → ai.skippedApply = true →
      entry.metadata.reload = "matched" →
      (∃ a ∈ entry.status.applyResponse.filteredApps, ∃ m, env.getApp a = .error m) →
      (runSyncJob env now inputTx entry dryRun true txc).2.1.countP
        (fun ev => ev == DbEvent.recurse) = 1) := by
  refine ⟨fun cch => runSyncJob_recurse_once env now inputTx entry dryRun cch txc,
    ?_, ?_⟩
  · intro ai ua hb happly hskip hmatched hmiss
    obtain ⟨msg, hmissing⟩ := (lookupApps_error_iff env _).mpr hmiss
    exact runSyncJob_rerun_guard env now inputTx entry dryRun txc hb ai ua happly
      hskip hmatched msg hmissing
  · intro ai ua hbAll happly hskip hmatched hmiss
    obtain ⟨msg, hmissing⟩ := (lookupApps_error_iff env _).mpr hmiss
    simp [runSyncJob, runSyncJobF, happly, hskip, hmatched, hmissing, hbAll]
    try simp only [List.countP_append, List.countP_cons, List.countP_nil,
      beginEvents_countP_recurse, rollbackEvents_countP_recurse,
      finishJob_countP_recurse]
    repeat' rw [map_countP_recurse _ _ (by intro a; simp)]
    have hz : ∀ (tx : Nat),
        (lookupApps env entry.status.applyResponse.filteredApps).1.countP
          ((fun ev => ev == DbEvent.recurse) ∘ DbEvent.getAppCall tx) = 0 := by
      intro tx
      rw [List.countP_eq_zero]
      intro a _
      simp
    try rw [hz, hz]
    try simp

/-- Entry for the C7 witness: matched reload policy, one last-run app. -/
def c7Entry : SyncEntry :=
  { id := "cl_syn_b", metadata := { reload := "matched" },
    status := { applyResponse := { filteredApps := ["app1"] } } }

/-- Environment for the C7 witness: Apply skips, the last-run app is gone. -/
def c7Env : SyncEnv :=
  { apply := fun _ _ => .ok ({ skippedApply := true }, []),
    getApp := fun _ => .error "app missing" }

/-- C7 witness: an inner checkCommitHash = false run with the app missing
returns the rerun error instead of recursing. -/
theorem claim_C7_witness :
    (runSyncJob c7Env 0 (some 5) c7Entry false false 0).1 =
      .error "Unexpected error, sync rerun with no commit hash" :=
  (claim_C7 c7Env 0 (some 5) c7Entry false 0).2.1 { skippedApply := true } []
    (by simp) rfl rfl rfl ⟨"app1", by simp [c7Entry], "app missing", rfl⟩

/-! ## Failure-rollback protocol (C1) -/

/-- A successful finish stage always returns the status it persisted: the
computed status with the apply snapshot attached. -/
theorem finishJob_ok_st_eq (env : SyncEnv) (inputTx : Option Nat)
    (entry : SyncEntry) (tx : Nat) (defers : List Nat) (txc : Nat)
    (status : SyncJobStatus) (ai : AppApplyResponse) (ua : List AppPathDomain)
    (st : SyncJobStatus) (apps : List AppPathDomain)
    (h : (finishJob env inputTx entry tx defers txc status ai ua).1 =
      .ok (st, apps)) :
    st = { status with applyResponse := ai } := by
  simp only [finishJob, persistAndComplete] at h
  repeat' split at h
  all_goals simp_all

/-- A successful finish stage for a failed status: rolls the in-use
transaction back, opens the fresh transaction, persists the status through
it (with no completion), clears the updated apps, and returns. -/
theorem finishJob_error_ok (env : SyncEnv) (inputTx : Option Nat)
    (entry : SyncEntry) (tx : Nat) (defers : List Nat) (txc : Nat)
    (status : SyncJobStatus) (ai : AppApplyResponse) (ua : List AppPathDomain)
    (st : SyncJobStatus) (apps : List AppPathDomain)
    (herr : status.error ≠ "")
    (h : (finishJob env inputTx entry tx defers txc status ai ua).1 =
      .ok (st, apps)) :
    apps = [] ∧ st = { status with applyResponse := ai } ∧
    (finishJob env inputTx entry tx defers txc status ai ua).2.1 =
      [DbEvent.rollback tx, DbEvent.beginTx txc,
       DbEvent.updateSyncStatus txc entry.id { status with applyResponse := ai }] ++
      rollbackEvents (txc :: defers) := by
  simp only [finishJob, if_pos herr] at h ⊢
  split at h
  · simp only [persistAndComplete] at h ⊢
    split at h
    · cases h
    · split at h
      · rename_i hc
        exact absurd hc.1 herr
      · simp only [Prod.mk.injEq, Except.ok.injEq] at h
        obtain ⟨hst, happs⟩ := h
        rename_i hbOk hupd hnc
        have hupd2 : env.updateOk = true := by
          by_contra hx
          exact hupd (by simpa using hx)
        refine ⟨happs.symm, hst.symm, ?_⟩
        simp [hbOk, hupd2, hnc]
  · cases h

/-- The counter never decreases across transaction setup. -/
theorem txcAfterBegin_ge (inputTx : Option Nat) (txc : Nat) :
    txc ≤ txcAfterBegin inputTx txc := by
  cases inputTx <;> simp [txcAfterBegin]

/-- Protocol conclusions for a finish stage reached with the in-use
transaction and counters produced by transaction setup. -/
theorem finishJob_errorProtocol (env : SyncEnv) (inputTx : Option Nat)
    (entry : SyncEntry) (txc : Nat) (status : SyncJobStatus)
    (ai : AppApplyResponse) (ua : List AppPathDomain)
    (htx : ∀ t, inputTx = some t → t < txc) :
    ∀ st apps,
      (finishJob env inputTx entry (ownTx inputTx txc) (ownDefers inputTx txc)
        (txcAfterBegin inputTx txc) status ai ua).1 = .ok (st, apps) →
      st.error ≠ "" →
      apps = [] ∧ st.failureCount = status.failureCount ∧
      st.state = status.state ∧
      ∃ used fresh, used ≠ fresh ∧ (∀ t, inputTx = some t → used = t) ∧
        [DbEvent.rollback used, DbEvent.beginTx fresh,
         DbEvent.updateSyncStatus fresh entry.id st].Sublist
        (finishJob env inputTx entry (ownTx inputTx txc)
          (ownDefers inputTx txc) (txcAfterBegin inputTx txc) status ai ua).2.1 := by
  intro st apps hok herr
  have hst := finishJob_ok_st_eq env inputTx entry _ _ _ status ai ua st apps hok
  have herr2 : status.error ≠ "" := by
    intro hx
    apply herr
    rw [hst]
    simpa using hx
  obtain ⟨happs, hsteq, hevs⟩ := finishJob_error_ok env inputTx entry _ _ _ status
    ai ua st apps herr2 hok
  refine ⟨happs, by rw [hsteq], by rw [hsteq], ?_⟩
  refine ⟨ownTx inputTx txc, txcAfterBegin inputTx txc, ?_, ?_, ?_⟩
  · cases hit : inputTx with
    | none => simp [ownTx, txcAfterBegin]
    | some t =>
      have hlt := htx t hit
      simp only [ownTx, txcAfterBegin]
      omega
  · intro t ht
    rw [ht]
    rfl
  · rw [hevs, ← hsteq]
    exact List.sublist_append_left _ _

/-- The failure-rollback protocol of the runSyncJob body: a completed run
whose status carries an error returns no updated apps, increments the
failure count, sets the transition state, and its trace rolls back the
transaction that was in use and persists the returned status through a
distinct fresh transaction. -/
theorem runSyncJobF_errorProtocol (env : SyncEnv) (now : Int)
    (inputTx : Option Nat) (entry : SyncEntry) (dryRun cch : Bool)
    (recurse : Nat → RunResult) (txc : Nat)
    (htx : ∀ t, inputTx = some t → t < txc)
    (hrec : ∀ t, txc ≤ t → ∀ st apps, (recurse t).1 = .ok (st, apps) →
      st.error ≠ "" →
      apps = [] ∧ st.failureCount = entry.status.failureCount + 1 ∧
      st.state = (if entry.status.failureCount + 1 ≥ env.maxFail then "Disabled"
                  else "Failing") ∧
      ∃ used fresh, used ≠ fresh ∧ (∀ t2, inputTx = some t2 → used = t2) ∧
        [DbEvent.rollback used, DbEvent.beginTx fresh,
         DbEvent.updateSyncStatus fresh entry.id st].Sublist (recurse t).2.1) :
    ∀ res evs txc2,
      runSyncJobF env now inputTx entry dryRun cch recurse txc = (res, evs, txc2) →
      ∀ st apps, res = .ok (st, apps) → st.error ≠ "" →
      apps = [] ∧ st.failureCount = entry.status.failureCount + 1 ∧
      st.state = (if entry.status.failureCount + 1 ≥ env.maxFail then "Disabled"
                  else "Failing") ∧
      ∃ used fresh, used ≠ fresh ∧ (∀ t2, inputTx = some t2 → used = t2) ∧
        [DbEvent.rollback used, DbEvent.beginTx fresh,
         DbEvent.updateSyncStatus fresh entry.id st].Sublist evs := by
  intro res evs txc2 h st apps hres herr
  subst hres
  simp only [runSyncJobF] at h
  split at h
  · simp at h
  · split at h
    · -- Apply failed
      simp only [Prod.mk.injEq] at h
      obtain ⟨h1, h2, h3⟩ := h
      obtain ⟨happs, hc, hs, used, fresh, hne, hu, hsub⟩ :=
        finishJob_errorProtocol env inputTx entry txc _ _ _ htx st apps h1 herr
      refine ⟨happs, by simpa using hc, by simpa using hs, used, fresh, hne, hu, ?_⟩
      rw [← h2]
      exact hsub.trans (List.sublist_append_right _ _)
    · split at h
      · split at h
        · split at h
          · -- missing app, inner guard
            simp at h
          · -- missing app, recursive re-run
            simp only [Prod.mk.injEq] at h
            obtain ⟨h1, h2, h3⟩ := h
            obtain ⟨happs, hc, hs, used, fresh, hne, hu, hsub⟩ :=
              hrec (txcAfterBegin inputTx txc) (txcAfterBegin_ge _ _) st apps h1 herr
            refine ⟨happs, hc, hs, used, fresh, hne, hu, ?_⟩
            rw [← h2]
            exact hsub.trans ((List.sublist_append_right _ _).trans
              (List.sublist_append_left _ _))
        · split at h
          · -- reload failed
            simp only [Prod.mk.injEq] at h
            obtain ⟨h1, h2, h3⟩ := h
            obtain ⟨happs, hc, hs, used, fresh, hne, hu, hsub⟩ :=
              finishJob_errorProtocol env inputTx entry txc _ _ _ htx st apps h1 herr
            refine ⟨happs, by simpa using hc, by simpa using hs, used, fresh, hne,
              hu, ?_⟩
            rw [← h2]
            exact hsub.trans (List.sublist_append_right _ _)
          · -- reloads all succeeded: returned status has empty error
            simp only [Prod.mk.injEq] at h
            obtain ⟨h1, h2, h3⟩ := h
            have hst := finishJob_ok_st_eq env inputTx entry _ _ _ _ _ _ st apps h1
            exact absurd (by rw [hst]) herr
      · -- no skip-optimization: returned status has empty error
        simp only [Prod.mk.injEq] at h
        obtain ⟨h1, h2, h3⟩ := h
        have hst := finishJob_ok_st_eq env inputTx entry _ _ _ _ _ _ st apps h1
        exact absurd (by rw [hst]) herr

/-- The failure-rollback protocol for the full runSyncJob. -/
theorem runSyncJob_errorProtocol (env : SyncEnv) (now : Int) (inputTx : Option Nat)
    (entry : SyncEntry) (dryRun cch : Bool) (txc : Nat)
    (htx : ∀ t, inputTx = some t → t < txc) :
    ∀ res evs txc2,
      runSyncJob env now inputTx entry dryRun cch txc = (res, evs, txc2) →
      ∀ st apps, res = .ok (st, apps) → st.error ≠ "" →
      apps = [] ∧ st.failureCount = entry.status.failureCount + 1 ∧
      st.state = (if entry.status.failureCount + 1 ≥ env.maxFail then "Disabled"
                  else "Failing") ∧
      ∃ used fresh, used ≠ fresh ∧ (∀ t2, inputTx = some t2 → used = t2) ∧
        [DbEvent.rollback used, DbEvent.beginTx fresh,
         DbEvent.updateSyncStatus fresh entry.id st].Sublist evs := by
  intro res evs txc2 h st apps hres herr
  cases cch with
  | false =>
    simp only [runSyncJob] at h
    exact runSyncJobF_errorProtocol env now inputTx entry dryRun false _ txc htx
      (fun t hle st' apps' h1 => absurd h1 (fun hx => Except.noConfusion hx))
      res evs txc2 h st apps hres herr
  | true =>
    simp only [runSyncJob] at h
    refine runSyncJobF_errorProtocol env now inputTx entry dryRun true _ txc htx
      ?_ res evs txc2 h st apps hres herr
    intro t hle st' apps' h1 herr2
    have htx2 : ∀ t2, inputTx = some t2 → t2 < t :=
      fun t2 h2 => lt_of_lt_of_le (htx t2 h2) hle
    exact runSyncJobF_errorProtocol env now inputTx entry dryRun false
      (fun t4 => (.error "", [], t4)) t htx2
      (fun t3 hle3 st3 apps3 h3 => absurd h3 (fun hx => Except.noConfusion hx))
      _ _ _ rfl st' apps' h1 herr2

/-- C1: a completed runSyncJob whose computed status ends with a non-empty
error returns an empty updated-applications list and an incremented failure
count, and its trace rolls back the transaction that was in use (the
caller's transaction when one was supplied) and persists the returned
failure status through a distinct fresh transaction, in that order. -/
theorem claim_C1 (env : SyncEnv) (now : Int) (inputTx : Option Nat)
    (entry : SyncEntry) (dryRun cch : Bool) (txc : Nat)
    (st : SyncJobStatus) (apps : List AppPathDomain) (evs : List DbEvent)
    (txc2 : Nat)
    (htx : ∀ t, inputTx = some t → t < txc)
    (h : runSyncJob env now inputTx entry dryRun cch txc =
      (.ok (st, apps), evs, txc2))
    (herr : st.error ≠ "") :
    apps = [] ∧ st.failureCount = entry.status.failureCount + 1 ∧
    ∃ used fresh, used ≠ fresh ∧ (∀ t, inputTx = some t → used = t) ∧
      [DbEvent.rollback used, DbEvent.beginTx fresh,
       DbEvent.updateSyncStatus fresh entry.id st].Sublist evs := by
  obtain ⟨happs, hc, _, hrest⟩ :=
    runSyncJob_errorProtocol env now inputTx entry dryRun cch txc htx
      _ evs txc2 h st apps rfl herr
  exact ⟨happs, hc, hrest⟩

/-- Environment for the C1 witness: Apply always fails. -/
def c1Env : SyncEnv := { apply := fun _ _ => .error "boom" }

/-- The status a failing run returns in the C1 witness. -/
def c1St : SyncJobStatus :=
  { lastExecutionTime := some 0, failureCount := 1, error := "boom",
    isApply := true, state := "Failing" }

/-- Trace of the failing run in the C1 witness. -/
def c1Evs : List DbEvent :=
  [DbEvent.logRunning "", DbEvent.applyCall 0 "" "", DbEvent.rollback 0,
   DbEvent.beginTx 1, DbEvent.updateSyncStatus 1 "" c1St, DbEvent.rollback 1]

/-- C1 witness: a concrete failing run (caller transaction 0) clears the
updated apps, increments the failure count, and its trace rolls transaction
0 back and persists the failure status through fresh transaction 1. -/
theorem claim_C1_witness :
    ([] : List AppPathDomain) = [] ∧
    c1St.failureCount = ({} : SyncEntry).status.failureCount + 1 ∧
    ∃ used fresh, used ≠ fresh ∧ (∀ t, (some 0 : Option Nat) = some t → used = t) ∧
      [DbEvent.rollback used, DbEvent.beginTx fresh,
       DbEvent.updateSyncStatus fresh ({} : SyncEntry).id c1St].Sublist c1Evs :=
  claim_C1 c1Env 0 (some 0) {} false true 1 c1St [] c1Evs 2
    (by intro t ht; cases ht; omega) (by rfl) (by decide)

/-! ## Success transition (C2) -/

/-- When every reload succeeds, the reload loop reports no error. -/
theorem reloadLoop_no_error (env : SyncEnv) (appMap : List (AppPathDomain × AppEntry))
    (l : List AppPathDomain) (h : ∀ a e2, (env.reload a e2).isOk = true) :
    (reloadLoop env appMap l).2.2.2.2 = none := by
  induction l with
  | nil => rfl
  | cons a rest ih =>
    simp only [reloadLoop]
    cases hr : env.reload a ((appMap.lookup a).getD {}) with
    | error e =>
      have := h a ((appMap.lookup a).getD {})
      rw [hr] at this
      cases this
    | ok r => simpa using ih

/-- On a run whose Apply and reloads all succeed, a completed runSyncJob
body returns the success status: failure count 0, state Enabled, no error. -/
theorem runSyncJobF_success (env : SyncEnv) (now : Int) (inputTx : Option Nat)
    (entry : SyncEntry) (dryRun cch : Bool) (recurse : Nat → RunResult) (txc : Nat)
    (happly : ∀ c, (env.apply entry.path c).isOk = true)
    (hreload : ∀ a e2, (env.reload a e2).isOk = true)
    (hrec : ∀ t st apps, (recurse t).1 = .ok (st, apps) →
      st.failureCount = 0 ∧ st.state = "Enabled" ∧ st.error = "") :
    ∀ res evs txc2,
      runSyncJobF env now inputTx entry dryRun cch recurse txc = (res, evs, txc2) →
      ∀ st apps, res = .ok (st, apps) →
      st.failureCount = 0 ∧ st.state = "Enabled" ∧ st.error = "" := by
  intro res evs txc2 h st apps hres
  subst hres
  simp only [runSyncJobF] at h
  split at h
  · simp at h
  · split at h
    · -- Apply reported an error: contradicts happly
      rename_i applyErr heq
      have hx := happly (if cch = true then entry.status.commitId else "")
      rw [heq] at hx
      cases hx
    · split at h
      · split at h
        · split at h
          · simp at h
          · -- recursion
            simp only [Prod.mk.injEq] at h
            obtain ⟨h1, h2, h3⟩ := h
            exact hrec _ st apps h1
        · split at h
          · -- reload error: contradicts hreload
            rename_i e heq
            rw [reloadLoop_no_error env _ _ hreload] at heq
            cases heq
          · simp only [Prod.mk.injEq] at h
            obtain ⟨h1, h2, h3⟩ := h
            have hst := finishJob_ok_st_eq env inputTx entry _ _ _ _ _ _ st apps h1
            rw [hst]
            exact ⟨rfl, rfl, rfl⟩
      · simp only [Prod.mk.injEq] at h
        obtain ⟨h1, h2, h3⟩ := h
        have hst := finishJob_ok_st_eq env inputTx entry _ _ _ _ _ _ st apps h1
        rw [hst]
        exact ⟨rfl, rfl, rfl⟩

/-- Success transition for the full runSyncJob. -/
theorem runSyncJob_success (env : SyncEnv) (now : Int) (inputTx : Option Nat)
    (entry : SyncEntry) (dryRun cch : Bool) (txc : Nat)
    (happly : ∀ c, (env.apply entry.path c).isOk = true)
    (hreload : ∀ a e2, (env.reload a e2).isOk = true) :
    ∀ res evs txc2,
      runSyncJob env now inputTx entry dryRun cch txc = (res, evs, txc2) →
      ∀ st apps, res = .ok (st, apps) →
      st.failureCount = 0 ∧ st.state = "Enabled" ∧ st.error = "" := by
  intro res evs txc2 h st apps hres
  cases cch with
  | false =>
    simp only [runSyncJob] at h
    exact runSyncJobF_success env now inputTx entry dryRun false _ txc happly
      hreload (fun t st2 apps2 h2 => absurd h2 (fun hx => Except.noConfusion hx))
      res evs txc2 h st apps hres
  | true =>
    simp only [runSyncJob] at h
    refine runSyncJobF_success env now inputTx entry dryRun true _ txc happly
      hreload ?_ res evs txc2 h st apps hres
    intro t st2 apps2 h2
    exact runSyncJobF_success env now inputTx entry dryRun false
      (fun t4 => (.error "", [], t4)) t happly hreload
      (fun t3 st3 apps3 h3 => absurd h3 (fun hx => Except.noConfusion hx))
      _ _ _ rfl st2 apps2 h2

/-- Concrete evaluation of a scheduler-style run whose Apply fails. -/
theorem runSyncJob_applyFail_eval (env : SyncEnv) (now : Int) (entry : SyncEntry)
    (dryRun : Bool) (txc : Nat) (msg : String) (hmsg : ¬ msg = "")
    (happly : env.apply entry.path entry.status.commitId = .error msg)
    (hb : env.beginOk txc = true) (hb2 : env.beginOk (txc + 1) = true)
    (hupd : env.updateOk = true) :
    (runSyncJob env now none entry dryRun true txc).1 =
      .ok ({ lastExecutionTime := some now, isApply := true, error := msg,
             failureCount := entry.status.failureCount + 1,
             state := if entry.status.failureCount + 1 ≥ env.maxFail then "Disabled"
                      else "Failing",
             applyResponse := { dryRun := dryRun,
                                filteredApps :=
                                  entry.status.applyResponse.filteredApps } },
           []) := by
  simp [runSyncJob, runSyncJobF, happly, hb, finishJob, persistAndComplete,
    hupd, hb2, hmsg, ownTx, ownDefers, txcAfterBegin]

/-- Entry driven by the scheduler in the failure-count iteration: scheduled,
one-minute frequency, fresh status. -/
def c2Entry : SyncEntry :=
  { id := "cl_syn_c", isScheduled := true, metadata := { scheduleFrequency := 1 } }

/-- Environment of that iteration: Apply always fails, configured maximum M. -/
def c2Env (M : Int) : SyncEnv := { maxFail := M, apply := fun _ _ => .error "boom" }

/-- Tick times, spaced one nanosecond beyond the one-minute frequency. -/
def c2Now (k : Nat) : Int := (k + 1) * 60000000001

/-- Status after r failing runs (r ≥ 1) under maximum M. -/
def c2Status (M : Int) (r : Nat) : SyncJobStatus :=
  { lastExecutionTime := some (c2Now (r - 1)), isApply := true, error := "boom",
    failureCount := (r : Int),
    state := if (r : Int) ≥ M then "Disabled" else "Failing",
    applyResponse := { dryRun := false, filteredApps := [] } }

/-- One minute in nanoseconds survives the int64 conversion. -/
theorem scheduleDuration_one : scheduleDuration 1 = 60000000000 := by decide

/-- Closed form of the scheduler-driven failing iteration: after n ticks the
entry has run min n M times. -/
theorem c2_schedTicks_eq (M : Nat) (hM : 1 ≤ M) (n : Nat) :
    schedTicks (c2Env (M : Int)) c2Now c2Entry n =
      (if min n M = 0 then c2Entry
       else { c2Entry with status := c2Status (M : Int) (min n M) }) := by
  induction n with
  | zero => simp [schedTicks]
  | succ n ih =>
    simp only [schedTicks]
    rw [ih]
    by_cases hn : n < M
    · have hmins : min (n + 1) M = n + 1 := by omega
      rw [hmins, if_neg (show ¬ (n + 1 = 0) by omega)]
      rcases Nat.eq_zero_or_pos n with rfl | hpos
      · rw [Nat.zero_min, if_pos rfl]
        have hskip : ¬ syncSkip (c2Env (M : Int)).maxFail (c2Now 0) c2Entry = true := by
          simp [syncSkip, c2Env, c2Entry, scheduleDuration_one]
          push_cast
          omega
        have heval := runSyncJob_applyFail_eval (c2Env (M : Int)) (c2Now 0) c2Entry
          false 0 "boom" (by simp) rfl rfl rfl rfl
        simp only [schedTick, if_neg hskip, heval]
        simp [c2Entry, c2Status, c2Env, c2Now]
      · have hminn : min n M = n := by omega
        rw [hminn, if_neg (show ¬ (n = 0) by omega)]
        have hskip : ¬ syncSkip (c2Env (M : Int)).maxFail (c2Now n)
            { c2Entry with status := c2Status (M : Int) n } = true := by
          simp [syncSkip, c2Env, c2Entry, c2Status, scheduleDuration_one, c2Now]
          push_cast
          constructor
          · omega
          · omega
        have heval := runSyncJob_applyFail_eval (c2Env (M : Int)) (c2Now n)
          { c2Entry with status := c2Status (M : Int) n } false 0 "boom" (by simp)
          rfl rfl rfl rfl
        simp only [schedTick, if_neg hskip, heval]
        simp [c2Entry, c2Status, c2Env, c2Now]
    · have hminn : min n M = M := by omega
      have hmins : min (n + 1) M = M := by omega
      rw [hminn, hmins, if_neg (show ¬ (M = 0) by omega)]
      have hskip : syncSkip (c2Env (M : Int)).maxFail (c2Now n)
          { c2Entry with status := c2Status (M : Int) M } = true := by
        simp [syncSkip, c2Env, c2Entry, c2Status]
      simp [schedTick, hskip]

/-- C2: on a failed run the returned status carries the previous failure
count plus one and state Disabled once the new count reaches the configured
maximum, Failing otherwise; on a successful run the count resets to 0 with
state Enabled; and under the scheduler, N consecutive failing ticks from a
fresh entry leave FailureCount = min N M (capped at the maximum M), with
state Disabled once N reaches M. -/
theorem claim_C2 (env : SyncEnv) (now : Int) (inputTx : Option Nat)
    (entry : SyncEntry) (dryRun cch : Bool) (txc : Nat)
    (htx : ∀ t, inputTx = some t → t < txc) :
    (∀ res evs txc2 st apps,
      runSyncJob env now inputTx entry dryRun cch txc = (res, evs, txc2) →
      res = .ok (st, apps) → st.error ≠ "" →
      st.failureCount = entry.status.failureCount + 1 ∧
      st.state = (if entry.status.failureCount + 1 ≥ env.maxFail then "Disabled"
                  else "Failing")) ∧
    ((∀ c, (env.apply entry.path c).isOk = true) →
     (∀ a e2, (env.reload a e2).isOk = true) →
     ∀ res evs txc2 st apps,
       runSyncJob env now inputTx entry dryRun cch txc = (res, evs, txc2) →
       res = .ok (st, apps) →
       st.failureCount = 0 ∧ st.state = "Enabled") ∧
    (∀ M : Nat, 1 ≤ M → ∀ n : Nat,
      (schedTicks (c2Env (M : Int)) c2Now c2Entry n).status.failureCount =
        min (n : Int) (M : Int) ∧
      ((M : Int) ≤ (n : Int) →
        (schedTicks (c2Env (M : Int)) c2Now c2Entry n).status.state =
          "Disabled")) := by
  refine ⟨?_, ?_, ?_⟩
  · intro res evs txc2 st apps h hres herr
    obtain ⟨_, hc, hs, _⟩ :=
      runSyncJob_errorProtocol env now inputTx entry dryRun cch txc htx
        res evs txc2 h st apps hres herr
    exact ⟨hc, hs⟩
  · intro happly hreload res evs txc2 st apps h hres
    obtain ⟨hc, hs, _⟩ :=
      runSyncJob_success env now inputTx entry dryRun cch txc happly hreload
        res evs txc2 h st apps hres
    exact ⟨hc, hs⟩
  · intro M hM n
    rw [c2_schedTicks_eq M hM n]
    by_cases hz : min n M = 0
    · rw [if_pos hz]
      have hn0 : n = 0 := by omega
      subst hn0
      constructor
      · simp [c2Entry]
      · intro hle
        omega
    · rw [if_neg hz]
      constructor
      · simp only [c2Status]
        push_cast
        omega
      · intro hle
        have hmm : min n M = M := by omega
        simp only [c2Status, hmm]
        rw [if_pos (by push_cast; omega)]

/-- C2 witness: with maximum 3, five consecutive failing scheduler ticks
leave the entry Disabled (count capped at 3). -/
theorem claim_C2_witness :
    (schedTicks (c2Env ((3 : Nat) : Int)) c2Now c2Entry 5).status.state =
      "Disabled" :=
  ((claim_C2 (c2Env 3) 0 none {} false true 0 (fun _ ht => nomatch ht)).2.2 3
    (by norm_num) 5).2 (by norm_num)

/-! ## Failed reload still advances the commit id (C9) -/

/-- C9: when Apply succeeds with SkippedApply under matched reload policy,
all last-run apps are present, and the reload loop reports an error, a
completed run returns a status whose Error is that (non-empty) reload error
and whose FailureCount is incremented, while CommitId still equals the
commit id returned by the successful Apply. -/
theorem claim_C9 (env : SyncEnv) (now : Int) (inputTx : Option Nat)
    (entry : SyncEntry) (dryRun cch : Bool) (txc : Nat)
    (ai : AppApplyResponse) (ua : List AppPathDomain) (appMap : List (AppPathDomain × AppEntry))
    (msg : String) (st : SyncJobStatus) (apps : List AppPathDomain)
    (evs : List DbEvent) (txc2 : Nat)
    (happly : env.apply entry.path (if cch = true then entry.status.commitId else "") =
      .ok (ai, ua))
    (hskip : ai.skippedApply = true)
    (hmatched : entry.metadata.reload = "matched")
    (hlook : (lookupApps env entry.status.applyResponse.filteredApps).2 = .ok appMap)
    (hrel : (reloadLoop env appMap entry.status.applyResponse.filteredApps).2.2.2.2 =
      some msg)
    (h : runSyncJob env now inputTx entry dryRun cch txc =
      (.ok (st, apps), evs, txc2)) :
    st.error = msg ∧ st.failureCount = entry.status.failureCount + 1 ∧
    st.commitId = ai.commitId := by
  have hmain : ∀ recurse txc0,
      runSyncJobF env now inputTx entry dryRun cch recurse txc0 =
        (.ok (st, apps), evs, txc2) →
      st.error = msg ∧ st.failureCount = entry.status.failureCount + 1 ∧
      st.commitId = ai.commitId := by
    intro recurse txc0 hF
    simp only [runSyncJobF, happly, hskip, hmatched, hlook, hrel] at hF
    split at hF
    · simp at hF
    · rw [if_pos ⟨trivial, trivial⟩] at hF
      simp only [Prod.mk.injEq] at hF
      obtain ⟨h1, h2, h3⟩ := hF
      have hst := finishJob_ok_st_eq env inputTx entry _ _ _ _ _ _ st apps h1
      rw [hst]
      exact ⟨rfl, rfl, rfl⟩
  cases cch with
  | true =>
    simp only [runSyncJob] at h
    exact hmain _ txc h
  | false =>
    simp only [runSyncJob] at h
    exact hmain _ txc h

/-- Environment for the C9 witness: Apply skips at commit abc123, the app
exists, its reload fails. -/
def c9Env : SyncEnv :=
  { apply := fun _ _ => .ok ({ skippedApply := true, commitId := "abc123" }, []),
    getApp := fun _ => .ok {},
    reload := fun _ _ => .error "reload failed" }

/-- Entry for the C9 witness: matched policy, one last-run app, previous
commit id old. -/
def c9Entry : SyncEntry :=
  { id := "cl_syn_d", metadata := { reload := "matched" },
    status := { commitId := "old", applyResponse := { filteredApps := ["app1"] } } }

/-- The status the C9 witness run returns. -/
def c9St : SyncJobStatus :=
  { lastExecutionTime := some 0, commitId := "abc123", failureCount := 1,
    error := "reload failed", isApply := true, state := "Failing",
    applyResponse :=
      { dryRun := false, commitId := "abc123", skippedApply := true,
        filteredApps := ["app1"] } }

/-- The event trace of the C9 witness run. -/
def c9Evs : List DbEvent :=
  [DbEvent.logRunning "cl_syn_d", DbEvent.applyCall 0 "" "old",
   DbEvent.getAppCall 0 "app1", DbEvent.reloadCall 0 "app1",
   DbEvent.rollback 0, DbEvent.beginTx 1,
   DbEvent.updateSyncStatus 1 "cl_syn_d" c9St, DbEvent.rollback 1]

/-- C9 witness: the concrete failed-reload run records the reload error and
incremented count while CommitId advanced to the Apply's commit abc123. -/
theorem claim_C9_witness :
    c9St.error = "reload failed" ∧
    c9St.failureCount = c9Entry.status.failureCount + 1 ∧
    c9St.commitId = ({ skippedApply := true, commitId := "abc123" } :
      AppApplyResponse).commitId :=
  claim_C9 c9Env 0 (some 0) c9Entry false true 1
    { skippedApply := true, commitId := "abc123" } [] [("app1", {})]
    "reload failed" c9St [] c9Evs 2 rfl rfl rfl (by rfl) (by rfl) (by rfl)

/-! ## Creation aborts on a failing initial run (C4) -/

/-- C4: when the immediate synchronous run fails (Apply reports an error),
CreateSyncEntry returns that error, no transaction is ever completed (so
the CreateSync write is never committed), and the creation transaction is
rolled back. -/
theorem claim_C4 (env : SyncEnv) (now : Int) (p : String)
    (scheduled dryRun : Bool) (sync : SyncMetadata) (txc : Nat)
    (gen pw msg : String)
    (hgen : env.genId = .ok gen) (hpw : env.genPassword = .ok pw)
    (hcreate : env.createOk = true) (hb : ∀ n, env.beginOk n = true)
    (hupd : env.updateOk = true)
    (happly : ∀ c, env.apply p c = .error msg) (hmsg : ¬ msg = "") :
    (CreateSyncEntry env now p scheduled dryRun sync txc).1 = .error msg ∧
    (∀ n, DbEvent.completeTx n ∉ (CreateSyncEntry env now p scheduled dryRun sync txc).2.1) ∧
    DbEvent.rollback txc ∈ (CreateSyncEntry env now p scheduled dryRun sync txc).2.1 := by
  cases scheduled with
  | false =>
    simp [CreateSyncEntry, runSyncJob, runSyncJobF, finishJob, persistAndComplete,
      hgen, hpw, hcreate, hb, hupd, happly, hmsg, ownTx, ownDefers, txcAfterBegin,
      beginEvents, rollbackEvents]
  | true =>
    by_cases hfreq : sync.scheduleFrequency ≤ 0
    · simp [CreateSyncEntry, runSyncJob, runSyncJobF, finishJob, persistAndComplete,
        hgen, hpw, hcreate, hb, hupd, happly, hmsg, hfreq, ownTx, ownDefers,
        txcAfterBegin, beginEvents, rollbackEvents]
    · simp [CreateSyncEntry, runSyncJob, runSyncJobF, finishJob, persistAndComplete,
        hgen, hpw, hcreate, hb, hupd, happly, hmsg, hfreq, ownTx, ownDefers,
        txcAfterBegin, beginEvents, rollbackEvents]

/-- Environment for the C4 witness: Apply always fails. -/
def c4Env : SyncEnv := { apply := fun _ _ => .error "boom" }

/-- C4 witness: creating a scheduled entry whose first run fails surfaces
the run's error. -/
theorem claim_C4_witness :
    (CreateSyncEntry c4Env 0 "path" true false { scheduleFrequency := 5 } 0).1 =
      .error "boom" :=
  (claim_C4 c4Env 0 "path" true false { scheduleFrequency := 5 } 0 "id" "pw" "boom"
    rfl rfl rfl (fun _ => rfl) rfl (fun _ => rfl) (by decide)).1

/-! ## Scheduler error isolation and permanent stop (C8) -/

/-- C8: a tick whose entry-list load fails returns that error; a tick whose
entry-list load succeeds returns ok regardless of per-entry outcomes; every
eligible entry is still attempted (its running log appears) whatever the
other entries' runs do; and the runner loop executes exactly the ticks up to
and including the first failing one, then stops permanently. -/
theorem claim_C8 (env : SyncEnv) (now : Int) (txc : Nat) :
    (∀ msg, env.beginOk txc = true → env.newCacheOk = true →
      env.getEntries = .error msg → (runSyncJobs env now txc).1 = .error msg) ∧
    (∀ entries, env.beginOk txc = true → env.newCacheOk = true →
      env.getEntries = .ok entries → (runSyncJobs env now txc).1 = .ok ()) ∧
    (∀ entries e txc0, (∀ n, env.beginOk n = true) → e ∈ entries →
      syncSkip env.maxFail now e = false →
      DbEvent.logRunning e.id ∈ (runSyncJobsLoop env now entries txc0).1) ∧
    (∀ (pre rest : List (Except String Unit)) (msg : String),
      (∀ t ∈ pre, t = .ok ()) →
      syncRunner (pre ++ .error msg :: rest) = pre.length + 1) := by
  refine ⟨?_, ?_, ?_, ?_⟩
  · intro msg hbtx hcache hget
    simp [runSyncJobs, hbtx, hcache, hget]
  · intro entries hbtx hcache hget
    simp [runSyncJobs, hbtx, hcache, hget]
  · intro entries e txc0 hb he hskip
    exact (runSyncJobsLoop_logRunning env now hb entries txc0 e.id).mpr
      ⟨e, he, hskip, rfl⟩
  · intro pre rest msg hpre
    induction pre with
    | nil => simp [syncRunner]
    | cons t ts ih =>
      have ht : t = .ok () := hpre t (List.mem_cons_self t ts)
      subst ht
      simp only [List.cons_append, syncRunner, List.length_cons, List.append_eq]
      rw [ih (fun u hu => hpre u (List.mem_cons_of_mem _ hu))]
      omega

/-- Tick results for the C8 witness. -/
def c8Ticks : List (Except String Unit) :=
  [.ok (), .ok (), .error "store down", .ok (), .ok ()]

/-- C8 witness: the runner executes exactly three of five ticks when the
third fails. -/
theorem claim_C8_witness : syncRunner c8Ticks = 3 :=
  (claim_C8 {} 0 0).2.2.2 [.ok (), .ok ()] [.ok (), .ok ()] "store down"
    (by intro t ht; simp only [List.mem_cons, List.not_mem_nil, or_false] at ht
        rcases ht with rfl | rfl <;> rfl)

end Clace
